import Mathlib

set_option maxRecDepth 20000

/- Verification of the quizly-app quiz pipeline: a shallow embedding of
   quiz_app/api/utils.py, quiz_app/api/services.py and the persistence
   boundary of quiz_app/models.py, with theorems settling the frozen
   claims about the URL resolver, the quiz validator, the Gemini
   response post-processing and the atomic persistence service. -/

/-- JSON values as decoded by Python's json.loads.  JSON numbers are
modeled as integers (the payloads under study contain no fractional
numbers; floating-point semantics is out of scope).  Python None and
decoded JSON null coincide and are both modeled by null. -/
inductive Json where
  | null : Json
  | bool : Bool → Json
  | num  : Int → Json
  | str  : String → Json
  | arr  : List Json → Json
  | obj  : List (String × Json) → Json

/-- Python dict key membership test (key in d) for a decoded JSON
object.  Dicts produced by json.loads have unique keys, so first-match
lookup below is faithful. -/
def jHasKey (kvs : List (String × Json)) (k : String) : Bool :=
  kvs.any (fun kv => kv.1 == k)

/-- Lookup of a key in a decoded JSON object. -/
def jLookup (kvs : List (String × Json)) (k : String) : Option Json :=
  (kvs.find? (fun kv => kv.1 == k)).map (fun kv => kv.2)

/-- Python dict.get with a default value. -/
def jGetD (kvs : List (String × Json)) (k : String) (d : Json) : Json :=
  (jLookup kvs k).getD d

/-- Python whitespace as stripped by str.strip() with no arguments,
modeled as ASCII whitespace (Python additionally strips the rarer
Unicode space characters; the strings under study contain none). -/
def pyIsWs (c : Char) : Bool :=
  c == ' ' || c == '\t' || c == '\n' || c == '\r' || c == '\x0b' || c == '\x0c'

/-- Drop trailing characters satisfying p. -/
def dropTrailing (p : Char → Bool) (l : List Char) : List Char :=
  (l.reverse.dropWhile p).reverse

/-- Drop leading and trailing characters satisfying p. -/
def stripWhile (p : Char → Bool) (l : List Char) : List Char :=
  dropTrailing p (l.dropWhile p)

/-- Python str.strip() with no arguments. -/
def pyStrip (s : String) : String := String.mk (stripWhile pyIsWs s.data)

/-- Python str.strip(c) for a one-character strip set. -/
def pyStripChar (c : Char) (s : String) : String :=
  String.mk (stripWhile (fun d => d == c) s.data)

/-- Python == on decoded JSON scalars: True == 1 and False == 0,
numbers by value, strings and None structurally, and no other
cross-type equality.  Container comparisons (Python compares lists and
dicts elementwise) are modeled as false: in validate_quiz_json they
are unreachable, because set() raises on an unhashable element before
any container comparison is attempted, and the answer is compared to
the options only when it is a string. -/
def pyEq : Json → Json → Bool
  | .str a, .str b => a == b
  | .num a, .num b => a == b
  | .bool a, .bool b => a == b
  | .bool a, .num b => (if a then (1 : Int) else 0) == b
  | .num a, .bool b => a == (if b then (1 : Int) else 0)
  | .null, .null => true
  | _, _ => false

/-- Python hashability of a decoded JSON value: lists and dicts are
unhashable, every scalar is hashable. -/
def pyHashable : Json → Bool
  | .arr _ => false
  | .obj _ => false
  | _ => true

/-- Building a Python set from a list of hashable values: an element
equal (by ==) to an already-inserted one is skipped. -/
def pySetInsert (seen : List Json) : List Json → List Json
  | [] => seen
  | x :: xs =>
    if seen.any (fun b => pyEq x b) then pySetInsert seen xs
    else pySetInsert (seen ++ [x]) xs

/-- len(set(l)) for a list of hashable values. -/
def pySetLen (l : List Json) : Nat := (pySetInsert [] l).length

/-- Python exceptions raised or propagated by the code under study.
The fault constructor models an opaque exception coming from an
external collaborator (yt-dlp, whisper, the Gemini client, or the
database driver). -/
inductive PyExn where
  | valueError : String → PyExn
  | runtimeError : String → PyExn
  | exception : String → PyExn
  | attributeError : PyExn
  | typeError : PyExn
  | fault : Nat → PyExn
deriving DecidableEq

/-- Decidable equality for Except results, so that concrete runs of
the embedded functions can be checked by decide. -/
instance {e a : Type} [DecidableEq e] [DecidableEq a] : DecidableEq (Except e a) := fun x y =>
  match x, y with
  | .ok u, .ok v =>
    if h : u = v then .isTrue (by rw [h])
    else .isFalse (by intro hh; injection hh; exact h (by assumption))
  | .error u, .error v =>
    if h : u = v then .isTrue (by rw [h])
    else .isFalse (by intro hh; injection hh; exact h (by assumption))
  | .ok _, .error _ => .isFalse (by intro hh; exact Except.noConfusion hh)
  | .error _, .ok _ => .isFalse (by intro hh; exact Except.noConfusion hh)

/-- The question_title rule of validate_quiz_json: a string that is
non-empty after stripping. -/
def qtOkB (qt : Json) : Bool :=
  match qt with
  | .str s => pyStrip s != ""
  | _ => false

/-- The description rule of validate_quiz_json: a string of length at
most 500 (Python len counts code points). -/
def descOkB (d : Json) : Bool :=
  match d with
  | .str s => s.length ≤ 500
  | _ => false

/-- One iteration of the question loop of validate_quiz_json
(utils.py lines 193-205) for the 1-indexed question i.  item.get on a
non-dict raises AttributeError (all three .get calls happen before any
check), and set(opts) raises TypeError when an option is unhashable;
both are modeled as .error. -/
def validateQuestion (i : Nat) (item : Json) : Except PyExn (Bool × String) :=
  match item with
  | .obj kvs =>
    let qt := jGetD kvs "question_title" .null
    let opts := jGetD kvs "question_options" .null
    let ans := jGetD kvs "answer" .null
    if !(qtOkB qt) then
      .ok (false, "Q" ++ toString i ++ ": question_title missing/invalid.")
    else
      match opts with
      | .arr os =>
        if os.length ≠ 4 then
          .ok (false, "Q" ++ toString i ++ ": must have exactly 4 options.")
        else if os.any (fun o => !(pyHashable o)) then .error .typeError
        else if pySetLen os ≠ 4 then
          .ok (false, "Q" ++ toString i ++ ": options must be distinct.")
        else
          match ans with
          | .str a =>
            if os.any (fun o => pyEq (.str a) o) then .ok (true, "")
            else .ok (false, "Q" ++ toString i ++ ": answer must be one of the options.")
          | _ => .ok (false, "Q" ++ toString i ++ ": answer must be one of the options.")
      | _ => .ok (false, "Q" ++ toString i ++ ": must have exactly 4 options.")
  | _ => .error .attributeError

/-- The question loop of validate_quiz_json with enumerate starting at
1: the first failing question determines the returned reason, and an
exception from any iteration propagates. -/
def validateQuestions (i : Nat) : List Json → Except PyExn (Bool × String)
  | [] => .ok (true, "")
  | item :: rest =>
    match validateQuestion i item with
    | .error e => .error e
    | .ok (false, msg) => .ok (false, msg)
    | .ok (true, _) => validateQuestions (i + 1) rest

/-- Shallow embedding of validate_quiz_json (utils.py lines 163-207).
A result of .error models the Python function raising instead of
returning a verdict. -/
def validate_quiz_json (q : Json) : Except PyExn (Bool × String) :=
  match q with
  | .obj kvs =>
    if !(jHasKey kvs "title") then .ok (false, "Missing key: title")
    else if !(jHasKey kvs "description") then .ok (false, "Missing key: description")
    else if !(jHasKey kvs "questions") then .ok (false, "Missing key: questions")
    else if !(descOkB (jGetD kvs "description" .null)) then
      .ok (false, "description must be <= 500 characters.")
    else
      match jGetD kvs "questions" .null with
      | .arr items =>
        if items.length ≠ 10 then
          .ok (false, "questions must contain exactly 10 questions.")
        else validateQuestions 1 items
      | _ => .ok (false, "questions must contain exactly 10 questions.")
  | _ => .ok (false, "Quiz is not a JSON object.")

/-- Pairwise distinctness of a list of values under Python ==, the
set-based distinctness of the specification. -/
def pairwiseDistinctB : List Json → Bool
  | [] => true
  | x :: xs => !(xs.any (fun b => pyEq x b)) && pairwiseDistinctB xs

/-- Whether a decoded JSON value is an object (a Python dict). -/
def isObjB : Json → Bool
  | .obj _ => true
  | _ => false

/-- Specification-side rule set for one question (specification 4.5,
rule 5): question_title a string that is non-empty after trimming;
question_options a sequence of exactly 4 pairwise-distinct (set-based,
hence hashable) values; answer a string that appears among the options
under Python equality. -/
def questionOkB (item : Json) : Bool :=
  match item with
  | .obj kvs =>
    qtOkB (jGetD kvs "question_title" .null) &&
    (match jGetD kvs "question_options" .null with
     | .arr os =>
       os.length == 4 && os.all pyHashable && pairwiseDistinctB os &&
       (match jGetD kvs "answer" .null with
        | .str a => os.any (fun o => pyEq (.str a) o)
        | _ => false)
     | _ => false)
  | _ => false

/-- Specification-side rule set for a whole payload (specification
4.5, rules 1-5). -/
def wellFormedB (q : Json) : Bool :=
  match q with
  | .obj kvs =>
    jHasKey kvs "title" && jHasKey kvs "description" && jHasKey kvs "questions" &&
    descOkB (jGetD kvs "description" .null) &&
    (match jGetD kvs "questions" .null with
     | .arr items => items.length == 10 && items.all questionOkB
     | _ => false)
  | _ => false

/-- The questions list of a payload (empty for shapes the question
loop never reaches). -/
def payloadQuestions (q : Json) : List Json :=
  match q with
  | .obj kvs =>
    match jGetD kvs "questions" .null with
    | .arr items => items
    | _ => []
  | _ => []

/-- The question_options entries of one question. -/
def optsList (item : Json) : List Json :=
  match item with
  | .obj kvs =>
    match jGetD kvs "question_options" .null with
    | .arr os => os
    | _ => []
  | _ => []

/-- The answer value of one question. -/
def answerOf (item : Json) : Json :=
  match item with
  | .obj kvs => jGetD kvs "answer" .null
  | _ => .null

/-- Result of urllib.parse.urlparse restricted to the components the
resolver reads, plus scheme/params/fragment for fidelity of the
splitting algorithm. -/
structure ParsedUrl where
  scheme : List Char
  netloc : List Char
  path : List Char
  params : List Char
  query : List Char
  fragment : List Char
deriving DecidableEq

/-- Characters allowed in a URL scheme (letters, digits, +, -, .). -/
def isSchemeChar (c : Char) : Bool :=
  c.isAlpha || c.isDigit || c == '+' || c == '-' || c == '.'

/-- Splitting of the scheme in urlsplit: the part before the first
colon is the (lower-cased) scheme when it is nonempty, starts with an
ASCII letter and contains only scheme characters. -/
def schemeSplit (url : List Char) : List Char × List Char :=
  match url.findIdx? (fun c => c == ':') with
  | some i =>
    let pre := url.take i
    if 0 < i && (url.headD ' ').isAlpha && pre.all isSchemeChar then
      (pre.map Char.toLower, url.drop (i + 1))
    else ([], url)
  | none => ([], url)

/-- Splitting of the network location in urlsplit: after a leading //,
the netloc extends to the first of /, ? or #. -/
def netlocSplit (url : List Char) : List Char × List Char :=
  match url with
  | '/' :: '/' :: rest =>
    let n := rest.takeWhile (fun c => !(c == '/' || c == '?' || c == '#'))
    (n, rest.drop n.length)
  | _ => ([], url)

/-- Split a character list at the first occurrence of c, returning the
part before it and, when c occurs, the part after it. -/
def splitFirst (c : Char) (l : List Char) : List Char × Option (List Char) :=
  match l.findIdx? (fun d => d == c) with
  | some i => (l.take i, some (l.drop (i + 1)))
  | none => (l, none)

/-- Index of the last character satisfying p, as in Python rfind. -/
def rfindIdx (p : Char → Bool) (l : List Char) : Option Nat :=
  match l.reverse.findIdx? p with
  | some j => some (l.length - 1 - j)
  | none => none

/-- Index of the first character satisfying p at or after position
start, as in Python find with a start argument. -/
def findIdxFrom (p : Char → Bool) (start : Nat) (l : List Char) : Option Nat :=
  match (l.drop start).findIdx? p with
  | some j => some (start + j)
  | none => none

/-- The _splitparams step of urlparse: parameters after the first
semicolon occurring in the last path segment are split off the path. -/
def splitParams (u : List Char) : List Char × List Char :=
  if u.any (fun c => c == '/') then
    match rfindIdx (fun c => c == '/') u with
    | some r =>
      match findIdxFrom (fun c => c == ';') r u with
      | some i => (u.take i, u.drop (i + 1))
      | none => (u, [])
    | none => (u, [])
  else
    match u.findIdx? (fun c => c == ';') with
    | some i => (u.take i, u.drop (i + 1))
    | none => (u, [])

/-- Shallow embedding of urllib.parse.urlparse on the character list
of a URL.  Returns none where Python raises ValueError (mismatched
IPv6 brackets), which extract_video_id catches.  The further CPython
validations of bracketed hosts and of unsafe non-ASCII netlocs are
modeled as accepting: they can only reject netlocs that are not in the
YouTube allow-list, so the resolver returns None for such URLs either
way.  Leading C0-control-or-space characters are stripped (CPython
only lstrips the URL) and tab/CR/LF characters are removed. -/
def pyUrlparse (url : List Char) : Option ParsedUrl :=
  let u0 := url.dropWhile (fun c => c.toNat ≤ 32)
  let u1 := u0.filter (fun c => !(c == '\t' || c == '\r' || c == '\n'))
  let su := schemeSplit u1
  let nu := netlocSplit su.2
  let netloc := nu.1
  if (netloc.any (fun c => c == '[')) != (netloc.any (fun c => c == ']')) then none
  else
    let fu := splitFirst '#' nu.2
    let qu := splitFirst '?' fu.1
    let pp := if qu.1.any (fun c => c == ';') then splitParams qu.1 else (qu.1, [])
    some { scheme := su.1, netloc := netloc, path := pp.1, params := pp.2,
           query := (qu.2).getD [], fragment := (fu.2).getD [] }

/-- Value of a hexadecimal digit. -/
def hexVal (c : Char) : Option Nat :=
  if '0' ≤ c && c ≤ '9' then some (c.toNat - 48)
  else if 'a' ≤ c && c ≤ 'f' then some (c.toNat - 87)
  else if 'A' ≤ c && c ≤ 'F' then some (c.toNat - 55)
  else none

/-- The Unicode replacement character. -/
def replChar : Char := Char.ofNat 0xFFFD

/-- Lenient UTF-8 decoding of a byte sequence as bytes.decode with
errors='replace': each maximal invalid subpart becomes one replacement
character.  The fuel argument only bounds the recursion depth; it is
initialized to the byte count, which the recursion never exhausts
because every step consumes at least one byte. -/
def utf8DecodeGo (fuel : Nat) (l : List Nat) : List Char :=
  match fuel, l with
  | _, [] => []
  | 0, _ => []
  | f + 1, b :: rest =>
    if b < 0x80 then Char.ofNat b :: utf8DecodeGo f rest
    else if 0xC2 ≤ b && b ≤ 0xDF then
      match rest with
      | c1 :: rest1 =>
        if 0x80 ≤ c1 && c1 ≤ 0xBF then
          Char.ofNat ((b - 0xC0) * 64 + (c1 - 0x80)) :: utf8DecodeGo f rest1
        else replChar :: utf8DecodeGo f (c1 :: rest1)
      | [] => [replChar]
    else if 0xE0 ≤ b && b ≤ 0xEF then
      let lo1 := if b == 0xE0 then 0xA0 else 0x80
      let hi1 := if b == 0xED then 0x9F else 0xBF
      match rest with
      | c1 :: rest1 =>
        if lo1 ≤ c1 && c1 ≤ hi1 then
          match rest1 with
          | c2 :: rest2 =>
            if 0x80 ≤ c2 && c2 ≤ 0xBF then
              Char.ofNat ((b - 0xE0) * 4096 + (c1 - 0x80) * 64 + (c2 - 0x80)) ::
                utf8DecodeGo f rest2
            else replChar :: utf8DecodeGo f (c2 :: rest2)
          | [] => [replChar]
        else replChar :: utf8DecodeGo f (c1 :: rest1)
      | [] => [replChar]
    else if 0xF0 ≤ b && b ≤ 0xF4 then
      let lo1 := if b == 0xF0 then 0x90 else 0x80
      let hi1 := if b == 0xF4 then 0x8F else 0xBF
      match rest with
      | c1 :: rest1 =>
        if lo1 ≤ c1 && c1 ≤ hi1 then
          match rest1 with
          | c2 :: rest2 =>
            if 0x80 ≤ c2 && c2 ≤ 0xBF then
              match rest2 with
              | c3 :: rest3 =>
                if 0x80 ≤ c3 && c3 ≤ 0xBF then
                  Char.ofNat ((b - 0xF0) * 262144 + (c1 - 0x80) * 4096 +
                    (c2 - 0x80) * 64 + (c3 - 0x80)) :: utf8DecodeGo f rest3
                else replChar :: utf8DecodeGo f (c3 :: rest3)
              | [] => [replChar]
            else replChar :: utf8DecodeGo f (c2 :: rest2)
          | [] => [replChar]
        else replChar :: utf8DecodeGo f (c1 :: rest1)
      | [] => [replChar]
    else replChar :: utf8DecodeGo f rest

/-- Lenient UTF-8 decoding with the fuel set to the byte count. -/
def utf8DecodeReplace (l : List Nat) : List Char := utf8DecodeGo l.length l

/-- Core of urllib.parse.unquote with errors='replace': ASCII
characters and valid percent-escapes are gathered into byte runs that
are decoded together as UTF-8 with replacement; non-ASCII characters
pass through literally and delimit the runs (CPython splits the input
into ASCII runs and decodes each run's unquoted bytes at once).  The
accumulator holds the current run's bytes in reverse; the fuel only
bounds the recursion depth and is initialized to the character count,
which the recursion never exhausts. -/
def unquoteGo (fuel : Nat) (acc : List Nat) (l : List Char) : List Char :=
  match fuel, l with
  | _, [] => utf8DecodeReplace acc.reverse
  | 0, _ => utf8DecodeReplace acc.reverse
  | f + 1, '%' :: c1 :: c2 :: rest =>
    match hexVal c1, hexVal c2 with
    | some hi, some lo => unquoteGo f ((hi * 16 + lo) :: acc) rest
    | _, _ => unquoteGo f (37 :: acc) (c1 :: c2 :: rest)
  | f + 1, '%' :: rest => unquoteGo f (37 :: acc) rest
  | f + 1, c :: rest =>
    if c.toNat < 128 then unquoteGo f (c.toNat :: acc) rest
    else utf8DecodeReplace acc.reverse ++ c :: unquoteGo f [] rest

/-- Python urllib.parse.unquote_plus: plus signs become spaces, then
percent-escapes are decoded. -/
def pyUnquotePlus (l : List Char) : List Char :=
  unquoteGo l.length [] (l.map (fun c => if c == '+' then ' ' else c))

/-- Split a character list on every occurrence of c, as Python
str.split(c). -/
def splitOnChar (c : Char) : List Char → List (List Char)
  | [] => [[]]
  | x :: xs =>
    let r := splitOnChar c xs
    if x == c then [] :: r
    else
      match r with
      | h :: t => (x :: h) :: t
      | [] => [[x]]

/-- Python urllib.parse.parse_qsl with default arguments: fields are
split on ampersands; empty fields, fields without an equals sign and
fields with an empty value are skipped (keep_blank_values is False);
names and values are unquote_plus-decoded. -/
def parseQsl (qs : List Char) : List (List Char × List Char) :=
  (splitOnChar '&' qs).filterMap (fun nv =>
    if nv.isEmpty then none
    else
      let s := splitFirst '=' nv
      match s.2 with
      | none => none
      | some v =>
        if v.isEmpty then none
        else some (pyUnquotePlus s.1, pyUnquotePlus v))

/-- The /watch branch of extract_video_id:
parse_qs(query).get("v", [None])[0], i.e. the value of the first query
field whose decoded name is v, if any. -/
def watchV (query : List Char) : Option (List Char) :=
  ((parseQsl query).find? (fun kv => kv.1 == "v".data)).map (fun kv => kv.2)

/-- Matching of the anchored regex for a path of the form
lit<segment>: the regex [^/]+ takes the maximal nonempty run of
non-slash characters after the literal. -/
def matchSegmentAfter (lit : List Char) (path : List Char) : Option (List Char) :=
  if lit.isPrefixOf path then
    let seg := (path.drop lit.length).takeWhile (fun c => !(c == '/'))
    if seg.isEmpty then none else some seg
  else none

/-- The YOUTUBE_DOMAINS allow-list of utils.py line 12 (a set in the
source, modeled as a list with membership testing). -/
def youtubeDomains : List (List Char) :=
  ["youtube.com".data, "www.youtube.com".data, "youtu.be".data, "www.youtu.be".data]

/-- The body of extract_video_id after a successful urlparse
(utils.py lines 36-55).  Python str.lower is modeled as character-wise
ASCII lowering: no non-ASCII character lowers to a string that could
make the host equal one of the ASCII allow-list entries. -/
def resolveParsed (p : ParsedUrl) : Option (List Char) :=
  if !(youtubeDomains.contains (p.netloc.map Char.toLower)) then none
  else if p.netloc.map Char.toLower == "youtu.be".data then
    if ((splitOnChar '/' (stripWhile (fun c => c == '/') p.path)).headD []).isEmpty then none
    else some ((splitOnChar '/' (stripWhile (fun c => c == '/') p.path)).headD [])
  else if p.path == "/watch".data then watchV p.query
  else
    match matchSegmentAfter "/shorts/".data p.path with
    | some seg => some seg
    | none => matchSegmentAfter "/embed/".data p.path

/-- Shallow embedding of extract_video_id (utils.py lines 15-55) on
the character list of the URL: a urlparse failure is caught and
becomes None. -/
def extractVidChars (url : List Char) : Option (List Char) :=
  match pyUrlparse url with
  | none => none
  | some p => resolveParsed p

/-- extract_video_id at String level. -/
def extract_video_id (url : String) : Option String :=
  (extractVidChars url.data).map String.mk

/-- Python str.replace(old, new, 1): replace the first occurrence of
pat (leftmost starting position) by rep. -/
def replaceFirstL (pat rep : List Char) : List Char → List Char
  | [] => if pat.isEmpty then rep else []
  | c :: rest =>
    if pat.isPrefixOf (c :: rest) then rep ++ (c :: rest).drop pat.length
    else c :: replaceFirstL pat rep rest

/-- The response post-processing of generate_quiz_with_gemini
(utils.py lines 151-155) on the character list: strip surrounding
whitespace; if the text then opens with the fenced marker for JSON,
strip all leading and trailing backticks, remove the first occurrence
of the literal tag json and strip again.  The result is the text
handed to json.loads. -/
def geminiPostChars (raw : List Char) : List Char :=
  if "```json".data.isPrefixOf (stripWhile pyIsWs raw) then
    stripWhile pyIsWs (replaceFirstL "json".data []
      (stripWhile (fun c => c == '`') (stripWhile pyIsWs raw)))
  else stripWhile pyIsWs raw

/-- The Gemini response post-processing at String level. -/
def geminiPostprocess (raw : String) : String := String.mk (geminiPostChars raw.data)

/-- A persisted Quiz row.  Timestamps are managed by the database
layer and carry no claim content; the opaque primary key is modeled as
the row's index at insertion time. -/
structure QuizRow where
  id : Nat
  user : Nat
  title : String
  description : String
  video_url : String
deriving DecidableEq

/-- A persisted Question row; question_options is a JSONField and
stores the payload value as-is. -/
structure QuestionRow where
  quizId : Nat
  question_title : String
  question_options : Json
  answer : String

/-- The visible database state: quizzes and questions in insertion
order. -/
structure Db where
  quizzes : List QuizRow
  questions : List QuestionRow

/-- Python repr of a string: quote choice (single quotes unless the
string contains a single quote and no double quote) and the basic
escapes.  The hex-escaping of other control characters is omitted: no
claim evaluates repr on such strings, repr is only reachable for
non-string field values. -/
def pyStrQuote (s : String) : String :=
  let sq := Char.ofNat 39
  let dq := Char.ofNat 34
  let q : Char := if s.data.contains sq && !(s.data.contains dq) then dq else sq
  let esc := s.data.foldr (fun c acc =>
    if c == '\\' then '\\' :: '\\' :: acc
    else if c == q then '\\' :: q :: acc
    else if c == '\n' then '\\' :: 'n' :: acc
    else if c == '\r' then '\\' :: 'r' :: acc
    else if c == '\t' then '\\' :: 't' :: acc
    else c :: acc) []
  String.mk (q :: esc ++ [q])

mutual

/-- Python repr() rendering of a decoded JSON value: None, True/False,
integers, quoted strings, and recursively rendered lists and dicts
(comma-space separated, dict entries as quoted key, colon, value). -/
def pyRepr : Json → String
  | .null => "None"
  | .bool b => if b then "True" else "False"
  | .num n => toString n
  | .str s => pyStrQuote s
  | .arr xs => "[" ++ pyReprList xs ++ "]"
  | .obj kvs => "\x7b" ++ pyReprKvs kvs ++ "\x7d"

/-- Comma-separated repr of list elements. -/
def pyReprList : List Json → String
  | [] => ""
  | [x] => pyRepr x
  | x :: rest => pyRepr x ++ ", " ++ pyReprList rest

/-- Comma-separated repr of dict entries. -/
def pyReprKvs : List (String × Json) → String
  | [] => ""
  | [(k, v)] => pyStrQuote k ++ ": " ++ pyRepr v
  | (k, v) :: rest => pyStrQuote k ++ ": " ++ pyRepr v ++ ", " ++ pyReprKvs rest

end

/-- Python str() of a decoded JSON value: a string is itself, any
other value renders as its repr. -/
def pyStr : Json → String
  | .str s => s
  | .null => "None"
  | .bool b => if b then "True" else "False"
  | .num n => toString n
  | v => pyRepr v

/-- The Quiz row constructed by _save_quiz_to_database (services.py
lines 112-117): title and description are str()-coerced and stripped;
.get on a non-dict payload raises AttributeError. -/
def mkQuizRow (id user : Nat) (videoUrl : String) (qj : Json) : Except PyExn QuizRow :=
  match qj with
  | .obj kvs =>
    .ok { id := id, user := user,
          title := pyStrip (pyStr (jGetD kvs "title" (.str ""))),
          description := pyStrip (pyStr (jGetD kvs "description" (.str ""))),
          video_url := videoUrl }
  | _ => .error .attributeError

/-- The Question row constructed from one payload question by
_save_quiz_to_database (services.py lines 120-125): question_title and
answer are str()-coerced and stripped, question_options is stored
exactly as provided (default empty list).  A non-dict question raises
AttributeError at the .get calls. -/
def mkQuestionRow (quizId : Nat) (q : Json) : Except PyExn QuestionRow :=
  match q with
  | .obj kvs =>
    .ok { quizId := quizId,
          question_title := pyStrip (pyStr (jGetD kvs "question_title" (.str ""))),
          question_options := jGetD kvs "question_options" (.arr []),
          answer := pyStrip (pyStr (jGetD kvs "answer" (.str ""))) }
  | _ => .error .attributeError

/-- A database insert of the Quiz row.  The oracle fail models the
database driver raising on the n-th insert of the transaction: op 0 is
the Quiz insert, ops 1.. are the Question inserts. -/
def dbInsertQuiz (fail : Nat → Bool) (row : QuizRow) (db : Db) : Except PyExn Db :=
  if fail 0 then .error (.fault 0)
  else .ok { db with quizzes := db.quizzes ++ [row] }

/-- A database insert of one Question row as op n of the transaction. -/
def dbInsertQuestion (fail : Nat → Bool) (n : Nat) (row : QuestionRow) (db : Db) :
    Except PyExn Db :=
  if fail n then .error (.fault n)
  else .ok { db with questions := db.questions ++ [row] }

/-- Iteration of the for loop over quiz_json.get("questions", []):
iterating a decoded list yields its elements; iterating a string
yields its characters as one-character strings; iterating a dict
yields its keys; iterating any other value raises TypeError.  Only the
list case is reachable from a validated payload. -/
def pyIter : Json → Except PyExn (List Json)
  | .arr xs => .ok xs
  | .str s => .ok (s.data.map (fun c => .str (String.mk [c])))
  | .obj kvs => .ok (kvs.map (fun kv => .str kv.1))
  | _ => .error .typeError

/-- The question-insertion loop of _save_quiz_to_database: builds and
inserts one Question row per payload question, in payload order. -/
def insertQuestions (fail : Nat → Bool) (quizId : Nat) :
    Nat → Db → List Json → Except PyExn Db
  | _, db, [] => .ok db
  | n, db, q :: rest => do
    let row ← mkQuestionRow quizId q
    let db1 ← dbInsertQuestion fail n row db
    insertQuestions fail quizId (n + 1) db1 rest

/-- The body of the transaction.atomic block of _save_quiz_to_database
(services.py lines 111-125): create the Quiz row, then create each of
the payload's Question rows in payload order. -/
def saveBody (fail : Nat → Bool) (user : Nat) (videoUrl : String) (qj : Json) (db : Db) :
    Except PyExn (Db × QuizRow) := do
  let quiz ← mkQuizRow db.quizzes.length user videoUrl qj
  let db1 ← dbInsertQuiz fail quiz db
  let items ← match qj with
    | .obj kvs => pyIter (jGetD kvs "questions" (.arr []))
    | _ => .error PyExn.attributeError
  let db2 ← insertQuestions fail quiz.id 1 db1 items
  return (db2, quiz)

/-- Shallow embedding of QuizService._save_quiz_to_database
(services.py lines 98-127).  transaction.atomic commits the body's
writes on success and rolls every write back on any exception, which
then propagates: on error the returned state is the entry state. -/
def save_quiz_to_database (fail : Nat → Bool) (user : Nat) (videoUrl : String) (qj : Json)
    (db : Db) : Db × Except PyExn QuizRow :=
  match saveBody fail user videoUrl qj db with
  | .ok r => (r.1, .ok r.2)
  | .error e => (db, .error e)

/-- Visible outcome of a yt-dlp download call: success, a
DownloadError (which download_audio catches and wraps), or any other
exception (which propagates). -/
inductive YtdlResult where
  | success : YtdlResult
  | downloadError : YtdlResult
  | otherFault : PyExn → YtdlResult

/-- External collaborators of the pipeline, supplied as oracles:
yt-dlp's download outcome, whether the output artifact exists
afterwards, whisper's transcription text, the Gemini configuration and
response text, and json.loads (none models a parse failure). -/
structure PipelineEnv where
  ytdl : String → YtdlResult
  audioExists : Bool
  whisper : String → Except PyExn String
  apiKeySet : Bool
  gemini : String → Except PyExn String
  jsonParse : String → Option Json

/-- Shallow embedding of download_audio (utils.py lines 58-98): a
DownloadError is wrapped as Exception "Failed to download audio.";
other yt-dlp exceptions propagate; after a reported success the output
artifact must exist or Exception "Audio extraction failed." is
raised. -/
def download_audio (env : PipelineEnv) (videoUrl tmpDir : String) : Except PyExn String :=
  match env.ytdl videoUrl with
  | .downloadError => .error (.exception "Failed to download audio.")
  | .otherFault e => .error e
  | .success =>
    if env.audioExists then .ok (tmpDir ++ "/audio.mp3")
    else .error (.exception "Audio extraction failed.")

/-- Shallow embedding of transcribe_audio (utils.py lines 103-123):
the whisper model's text is stripped of surrounding whitespace before
being returned. -/
def transcribe_audio (env : PipelineEnv) (audioPath : String) : Except PyExn String :=
  match env.whisper audioPath with
  | .error e => .error e
  | .ok t => .ok (pyStrip t)

/-- Shallow embedding of generate_quiz_with_gemini (utils.py lines
126-160): a missing API key raises; the client's response text is
post-processed by geminiPostprocess; a JSON parse failure raises
Exception "Generated content is not valid JSON."; client faults
propagate. -/
def generate_quiz_with_gemini (env : PipelineEnv) (prompt : String) : Except PyExn Json :=
  if !env.apiKeySet then .error (.exception "GEMINI_API_KEY is not set in settings.")
  else
    match env.gemini prompt with
    | .error e => .error e
    | .ok raw =>
      match env.jsonParse (geminiPostprocess raw) with
      | some j => .ok j
      | none => .error (.exception "Generated content is not valid JSON.")

/-- The PROMPT_TEMPLATE string constant of services.py lines 13-39
after the .strip() applied at definition and with the doubled braces
collapsed as str.format does, up to the transcript placeholder. -/
def promptHead : String :=
  "Based on the following transcript, generate a quiz in valid JSON format.\n\nThe quiz must follow this exact structure:\n\n\x7b\n  \"title\": \"Create a concise quiz title based on the topic of the transcript.\",\n  \"description\": \"Summarize the transcript in no more than 150 characters. Do not include any quiz questions or answers.\",\n  \"questions\": [\n    \x7b\n      \"question_title\": \"The question goes here.\",\n      \"question_options\": [\"Option A\", \"Option B\", \"Option C\", \"Option D\"],\n      \"answer\": \"The correct answer from the above options\"\n    \x7d\n    (exactly 10 questions)\n  ]\n\x7d\n\nRequirements:\n- Each question must have exactly 4 distinct answer options.\n- Only one correct answer is allowed per question, and it must be present in 'question_options'.\n- The output must be valid JSON and parsable as-is (e.g., using Python's json.loads).\n- Do not include explanations, comments, or any text outside the JSON.\n\nTranscript:\n"

/-- PROMPT_TEMPLATE.format(transcript=transcript) (services.py line
87): the stripped template ends with the transcript placeholder, so
formatting appends the transcript to the fixed head. -/
def promptFor (transcript : String) : String := promptHead ++ transcript

/-- Externally observable pipeline actions, in order of occurrence. -/
inductive PipelineAction where
  | download : PipelineAction
  | transcribe : PipelineAction
  | generate : PipelineAction
deriving DecidableEq

/-- Shallow embedding of QuizService.create_quiz_from_youtube
(services.py lines 49-96), instrumented with the list of external
acquisition/AI actions performed.  Returns the final database state,
the result (the persisted Quiz row or the propagated exception), and
the performed actions.  The falsiness test `if not video_id` holds for
None and for an empty identifier. -/
def create_quiz_from_youtube (env : PipelineEnv) (fail : Nat → Bool) (user : Nat)
    (videoUrl : String) (db : Db) : Db × Except PyExn QuizRow × List PipelineAction :=
  if (extract_video_id videoUrl).getD "" == "" then
    (db, .error (.valueError "Invalid YouTube URL."), [])
  else
    match download_audio env videoUrl "tmp" with
    | .error e => (db, .error e, [.download])
    | .ok audioPath =>
      match transcribe_audio env audioPath with
      | .error e => (db, .error e, [.download, .transcribe])
      | .ok transcript =>
        if transcript == "" then
          (db, .error (.runtimeError "Transcription failed."), [.download, .transcribe])
        else
          match generate_quiz_with_gemini env (promptFor transcript) with
          | .error e => (db, .error e, [.download, .transcribe, .generate])
          | .ok quizJson =>
            match validate_quiz_json quizJson with
            | .error e => (db, .error e, [.download, .transcribe, .generate])
            | .ok v =>
              if !v.1 then
                (db, .error (.valueError ("Generated quiz is invalid: " ++ v.2)),
                 [.download, .transcribe, .generate])
              else
                let r := save_quiz_to_database fail user videoUrl quizJson db
                (r.1, r.2, [.download, .transcribe, .generate])

/-- The first non-empty segment of a path split on slashes, if any:
the specification's notion of the short-link video identifier. -/
def firstNonemptySeg (path : List Char) : Option (List Char) :=
  (splitOnChar '/' path).find? (fun seg => !seg.isEmpty)

/-- A well-formed question fixture. -/
def goodQuestion : Json :=
  .obj [("question_title", .str "Q"),
        ("question_options", .arr [.str "A", .str "B", .str "C", .str "D"]),
        ("answer", .str "A")]

/-- A payload fixture with n copies of the well-formed question. -/
def nQPayload (n : Nat) : Json :=
  .obj [("title", .str "T"), ("description", .str "D"),
        ("questions", .arr (List.replicate n goodQuestion))]

/-- The well-formed payload fixture with exactly 10 questions. -/
def goodPayload : Json := nQPayload 10

/-- A payload fixture whose first question is q, followed by 9 copies
of the well-formed question. -/
def payloadWithQ (q : Json) : Json :=
  .obj [("title", .str "T"), ("description", .str "D"),
        ("questions", .arr (q :: List.replicate 9 goodQuestion))]

/-- A question fixture with k option strings O1..Ok. -/
def kOptQuestion (opts : List Json) : Json :=
  .obj [("question_title", .str "Q"), ("question_options", .arr opts),
        ("answer", .str "A")]

/-- A well-formed payload fixture whose title value is t. -/
def titledPayload (t : Json) : Json :=
  .obj [("title", t), ("description", .str "D"),
        ("questions", .arr (List.replicate 10 goodQuestion))]

/-- A question whose options are one string and three numbers, with
the answer equal to the string option. -/
def mixedOptsQuestion (n1 n2 n3 : Int) : Json :=
  .obj [("question_title", .str "Q"),
        ("question_options", .arr [.str "A", .num n1, .num n2, .num n3]),
        ("answer", .str "A")]

/-- The payload whose first question has surrounding whitespace in the
answer, matched exactly by one option. -/
def paddedAnswerPayload : Json :=
  payloadWithQ (.obj [("question_title", .str "Q"),
    ("question_options", .arr [.str " A ", .str "B", .str "C", .str "D"]),
    ("answer", .str " A ")])

/-- A pipeline environment fixture whose collaborators all succeed and
whose AI response parses to the well-formed payload. -/
def okEnv : PipelineEnv :=
  { ytdl := fun _ => .success, audioExists := true,
    whisper := fun _ => .ok " hello ",
    apiKeySet := true,
    gemini := fun _ => .ok "RESP",
    jsonParse := fun s => if s == "RESP" then some goodPayload else none }

/-- The all-successful database oracle. -/
def noFail : Nat → Bool := fun _ => false

/-- The Question row built from an object question: the total version
of mkQuestionRow used to state the success shape of the save (the
fallback arm is never reached for validated payloads). -/
def questionRowOf (quizId : Nat) (q : Json) : QuestionRow :=
  match q with
  | .obj kvs =>
    { quizId := quizId,
      question_title := pyStrip (pyStr (jGetD kvs "question_title" (.str ""))),
      question_options := jGetD kvs "question_options" (.arr []),
      answer := pyStrip (pyStr (jGetD kvs "answer" (.str ""))) }
  | _ => { quizId := quizId, question_title := "", question_options := .arr [], answer := "" }

/-- The Quiz row built from an object payload: the total version of
mkQuizRow. -/
def quizRowOf (id user : Nat) (videoUrl : String) (qj : Json) : QuizRow :=
  match qj with
  | .obj kvs =>
    { id := id, user := user,
      title := pyStrip (pyStr (jGetD kvs "title" (.str ""))),
      description := pyStrip (pyStr (jGetD kvs "description" (.str ""))),
      video_url := videoUrl }
  | _ => { id := id, user := user, title := "", description := "", video_url := videoUrl }

lemma pyEq_symm (a b : Json) : pyEq a b = pyEq b a := by
  cases a <;> cases b <;> simp [pyEq, beq_iff_eq, eq_comm]

lemma pySetInsert_le (l seen : List Json) :
    (pySetInsert seen l).length ≤ seen.length + l.length := by
  induction l generalizing seen with
  | nil => simp [pySetInsert]
  | cons x xs ih =>
    by_cases h : (seen.any fun b => pyEq x b) = true
    · simp only [pySetInsert, h, if_true]
      have := ih seen
      simp +arith [List.length_cons]
      omega
    · rw [Bool.not_eq_true] at h
      simp only [pySetInsert, h]
      have := ih (seen ++ [x])
      simp +arith [List.length_append] at this ⊢
      omega

lemma pySetInsert_eq_iff (l seen : List Json) :
    (pySetInsert seen l).length = seen.length + l.length ↔
      (pairwiseDistinctB l = true ∧ ∀ x ∈ l, (seen.any fun b => pyEq x b) = false) := by
  induction l generalizing seen with
  | nil => simp [pySetInsert, pairwiseDistinctB]
  | cons x xs ih =>
    by_cases h : (seen.any fun b => pyEq x b) = true
    · simp only [pySetInsert, h, if_true]
      constructor
      · intro hl
        exfalso
        have := pySetInsert_le xs seen
        simp [List.length_cons] at hl
        omega
      · rintro ⟨-, hall⟩
        exact absurd (hall x (List.mem_cons_self x xs)) (by simp [h])
    · rw [Bool.not_eq_true] at h
      simp only [pySetInsert, h]
      rw [if_neg (show ¬(false = true) by decide)]
      rw [show seen.length + (x :: xs).length = (seen ++ [x]).length + xs.length by
        simp +arith]
      rw [ih (seen ++ [x])]
      constructor
      · rintro ⟨hd, hall⟩
        refine ⟨?_, ?_⟩
        · simp only [pairwiseDistinctB, hd, Bool.and_true, Bool.not_eq_true']
          rw [List.any_eq_false]
          intro y hy
          have hyy := hall y hy
          rw [List.any_append] at hyy
          simp only [Bool.or_eq_false_iff] at hyy
          have h2 := hyy.2
          simp only [List.any_cons, List.any_nil, Bool.or_false] at h2
          rw [pyEq_symm]
          simp [h2]
        · intro y hy
          rcases List.mem_cons.mp hy with rfl | hy2
          · exact h
          · have hyy := hall y hy2
            rw [List.any_append] at hyy
            simp only [Bool.or_eq_false_iff] at hyy
            exact hyy.1
      · rintro ⟨hd, hall⟩
        simp only [pairwiseDistinctB, Bool.and_eq_true, Bool.not_eq_true'] at hd
        refine ⟨hd.2, ?_⟩
        intro y hy
        rw [List.any_append]
        simp only [Bool.or_eq_false_iff]
        refine ⟨hall y (List.mem_cons_of_mem x hy), ?_⟩
        simp only [List.any_cons, List.any_nil, Bool.or_false]
        rw [pyEq_symm]
        rw [List.any_eq_false] at hd
        simp [hd.1 y hy]

lemma pySetLen_eq_iff (l : List Json) :
    (pySetLen l = l.length) ↔ pairwiseDistinctB l = true := by
  unfold pySetLen
  rw [show l.length = ([] : List Json).length + l.length by simp]
  rw [pySetInsert_eq_iff]
  simp

lemma validateQuestion_eq_iff (i : Nat) (item : Json) (s : String) :
    validateQuestion i item = .ok (true, s) ↔ (questionOkB item = true ∧ s = "") := by
  cases item with
  | obj kvs =>
    simp only [validateQuestion, questionOkB]
    by_cases hqt : qtOkB (jGetD kvs "question_title" .null) = true
    · simp only [hqt, Bool.not_true, Bool.true_and, if_neg (by decide : ¬(false = true))]
      cases hopts : jGetD kvs "question_options" .null with
      | arr os =>
        by_cases hlen : os.length = 4
        · simp only [hlen, if_neg (by simp : ¬((4 : Nat) ≠ 4)), beq_self_eq_true, Bool.true_and]
          by_cases hhash : (os.any fun o => !pyHashable o) = true
          · have : os.all pyHashable = false := by
              rw [List.all_eq_not_any_not]
              simp [hhash]
            simp [hhash, this]
          · rw [Bool.not_eq_true] at hhash
            have hall : os.all pyHashable = true := by
              rw [List.all_eq_not_any_not]
              simp [hhash]
            simp only [hhash, hall, Bool.true_and, if_neg (by decide : ¬(false = true))]
            by_cases hdist : pySetLen os = 4
            · have hpd : pairwiseDistinctB os = true := by
                rw [← pySetLen_eq_iff, hlen]
                exact hdist
              simp only [hdist, if_neg (by simp : ¬((4 : Nat) ≠ 4)), hpd, Bool.true_and]
              cases hans : jGetD kvs "answer" .null with
              | str a =>
                by_cases hmem : (os.any fun o => pyEq (.str a) o) = true
                · simp [hmem, And.comm, eq_comm]
                · rw [Bool.not_eq_true] at hmem
                  simp [hmem]
              | null => simp
              | bool b => simp
              | num n => simp
              | arr l => simp
              | obj l => simp
            · have hpd : pairwiseDistinctB os = false := by
                cases hb : pairwiseDistinctB os
                · rfl
                · exfalso
                  have h2 := (pySetLen_eq_iff os).mpr hb
                  rw [hlen] at h2
                  exact hdist h2
              simp [hdist, hpd]
        · have : (os.length == 4) = false := by simp [hlen]
          simp [hlen, this]
      | null => simp
      | bool b => simp
      | num n => simp
      | str a => simp
      | obj l => simp
    · rw [Bool.not_eq_true] at hqt
      simp [hqt]
  | null => simp [validateQuestion, questionOkB]
  | bool b => simp [validateQuestion, questionOkB]
  | num n => simp [validateQuestion, questionOkB]
  | str a => simp [validateQuestion, questionOkB]
  | arr l => simp [validateQuestion, questionOkB]

lemma validateQuestions_ok_iff (items : List Json) (i : Nat) :
    validateQuestions i items = .ok (true, "") ↔ items.all questionOkB = true := by
  induction items generalizing i with
  | nil => simp [validateQuestions]
  | cons item rest ih =>
    simp only [validateQuestions, List.all_cons, Bool.and_eq_true]
    cases h : validateQuestion i item with
    | error e =>
      constructor
      · intro hc
        exact absurd hc (by simp)
      · rintro ⟨hok, -⟩
        have := (validateQuestion_eq_iff i item "").mpr ⟨hok, rfl⟩
        rw [h] at this
        exact absurd this (by simp)
    | ok br =>
      rcases br with ⟨b, msg⟩
      cases b
      · constructor
        · intro hc
          exact absurd hc (by simp)
        · rintro ⟨hok, -⟩
          have := (validateQuestion_eq_iff i item "").mpr ⟨hok, rfl⟩
          rw [h] at this
          simp at this
      · have hq := (validateQuestion_eq_iff i item msg).mp h
        rw [ih (i + 1)]
        simp [hq.1]

lemma validate_ok_iff (q : Json) :
    validate_quiz_json q = .ok (true, "") ↔ wellFormedB q = true := by
  cases q with
  | obj kvs =>
    simp only [validate_quiz_json, wellFormedB]
    by_cases h1 : jHasKey kvs "title" = true
    · by_cases h2 : jHasKey kvs "description" = true
      · by_cases h3 : jHasKey kvs "questions" = true
        · by_cases h4 : descOkB (jGetD kvs "description" .null) = true
          · simp only [h1, h2, h3, h4, Bool.not_true, Bool.true_and,
              if_neg (by decide : ¬(false = true))]
            cases hq : jGetD kvs "questions" .null with
            | arr items =>
              by_cases h5 : items.length = 10
              · simp only [h5, if_neg (by simp : ¬((10 : Nat) ≠ 10)), beq_self_eq_true,
                  Bool.true_and]
                exact validateQuestions_ok_iff items 1
              · have : (items.length == 10) = false := by simp [h5]
                simp [h5, this]
            | null => simp
            | bool b => simp
            | num n => simp
            | str a => simp
            | obj l => simp
          · rw [Bool.not_eq_true] at h4
            simp [h1, h2, h3, h4]
        · rw [Bool.not_eq_true] at h3
          simp [h1, h2, h3]
      · rw [Bool.not_eq_true] at h2
        simp [h1, h2]
    · rw [Bool.not_eq_true] at h1
      simp [h1]
  | null => simp [validate_quiz_json, wellFormedB]
  | bool b => simp [validate_quiz_json, wellFormedB]
  | num n => simp [validate_quiz_json, wellFormedB]
  | str a => simp [validate_quiz_json, wellFormedB]
  | arr l => simp [validate_quiz_json, wellFormedB]

lemma validateQuestion_no_raise (i : Nat) (item : Json)
    (hobj : isObjB item = true)
    (hh : ∀ o ∈ optsList item, pyHashable o = true) :
    ∃ br, validateQuestion i item = .ok br := by
  cases item with
  | obj kvs =>
    simp only [validateQuestion]
    by_cases hqt : qtOkB (jGetD kvs "question_title" .null) = true
    · simp only [hqt, Bool.not_true, if_neg (by decide : ¬(false = true))]
      cases hopts : jGetD kvs "question_options" .null with
      | arr os =>
        by_cases hlen : os.length = 4
        · have hhash : (os.any fun o => !pyHashable o) = false := by
            rw [List.any_eq_false]
            intro o ho
            have := hh o (by simp [optsList, hopts, ho])
            simp [this]
          simp only [hlen, if_neg (by simp : ¬((4 : Nat) ≠ 4)), hhash,
            if_neg (by decide : ¬(false = true))]
          by_cases hdist : pySetLen os = 4
          · simp only [hdist, if_neg (by simp : ¬((4 : Nat) ≠ 4))]
            cases jGetD kvs "answer" .null with
            | str a =>
              by_cases hmem : (os.any fun o => pyEq (.str a) o) = true
              · exact ⟨(true, ""), by simp [hmem]⟩
              · rw [Bool.not_eq_true] at hmem
                exact ⟨(false, "Q" ++ toString i ++ ": answer must be one of the options."),
                  by simp [hmem]⟩
            | null => exact ⟨_, rfl⟩
            | bool b => exact ⟨_, rfl⟩
            | num n => exact ⟨_, rfl⟩
            | arr l => exact ⟨_, rfl⟩
            | obj l => exact ⟨_, rfl⟩
          · exact ⟨(false, "Q" ++ toString i ++ ": options must be distinct."),
              by simp [hdist]⟩
        · exact ⟨(false, "Q" ++ toString i ++ ": must have exactly 4 options."),
            by simp [hlen]⟩
      | null => exact ⟨_, rfl⟩
      | bool b => exact ⟨_, rfl⟩
      | num n => exact ⟨_, rfl⟩
      | str a => exact ⟨_, rfl⟩
      | obj l => exact ⟨_, rfl⟩
    · rw [Bool.not_eq_true] at hqt
      exact ⟨(false, "Q" ++ toString i ++ ": question_title missing/invalid."),
        by simp [hqt]⟩
  | null => simp [isObjB] at hobj
  | bool b => simp [isObjB] at hobj
  | num n => simp [isObjB] at hobj
  | str a => simp [isObjB] at hobj
  | arr l => simp [isObjB] at hobj

lemma validateQuestions_no_raise (items : List Json) (i : Nat)
    (h : ∀ item ∈ items, isObjB item = true ∧ ∀ o ∈ optsList item, pyHashable o = true) :
    ∃ br, validateQuestions i items = .ok br := by
  induction items generalizing i with
  | nil => exact ⟨(true, ""), rfl⟩
  | cons item rest ih =>
    have hhead := h item (List.mem_cons_self item rest)
    obtain ⟨⟨b, msg⟩, hbr⟩ := validateQuestion_no_raise i item hhead.1 hhead.2
    cases b
    · exact ⟨(false, msg), by simp [validateQuestions, hbr]⟩
    · obtain ⟨br2, h2⟩ := ih (i + 1) (fun it hit => h it (List.mem_cons_of_mem item hit))
      exact ⟨br2, by simp [validateQuestions, hbr, h2]⟩

lemma validate_no_raise (q : Json)
    (h : ∀ item ∈ payloadQuestions q, isObjB item = true ∧
      ∀ o ∈ optsList item, pyHashable o = true) :
    ∃ br, validate_quiz_json q = .ok br := by
  cases q with
  | obj kvs =>
    simp only [validate_quiz_json]
    by_cases h1 : jHasKey kvs "title" = true
    · by_cases h2 : jHasKey kvs "description" = true
      · by_cases h3 : jHasKey kvs "questions" = true
        · by_cases h4 : descOkB (jGetD kvs "description" .null) = true
          · simp only [h1, h2, h3, h4, Bool.not_true, if_neg (by decide : ¬(false = true))]
            cases hq : jGetD kvs "questions" .null with
            | arr items =>
              by_cases h5 : items.length = 10
              · simp only [h5, if_neg (by simp : ¬((10 : Nat) ≠ 10))]
                refine validateQuestions_no_raise items 1 ?_
                intro item hit
                exact h item (by simp [payloadQuestions, hq, hit])
              · exact ⟨(false, "questions must contain exactly 10 questions."),
                  by simp [h5]⟩
            | null => exact ⟨_, rfl⟩
            | bool b => exact ⟨_, rfl⟩
            | num n => exact ⟨_, rfl⟩
            | str a => exact ⟨_, rfl⟩
            | obj l => exact ⟨_, rfl⟩
          · rw [Bool.not_eq_true] at h4
            exact ⟨(false, "description must be <= 500 characters."), by simp [h1, h2, h3, h4]⟩
        · rw [Bool.not_eq_true] at h3
          exact ⟨(false, "Missing key: questions"), by simp [h1, h2, h3]⟩
      · rw [Bool.not_eq_true] at h2
        exact ⟨(false, "Missing key: description"), by simp [h1, h2]⟩
    · rw [Bool.not_eq_true] at h1
      exact ⟨(false, "Missing key: title"), by simp [h1]⟩
  | null => exact ⟨_, rfl⟩
  | bool b => exact ⟨_, rfl⟩
  | num n => exact ⟨_, rfl⟩
  | str a => exact ⟨_, rfl⟩
  | arr l => exact ⟨_, rfl⟩


lemma wellFormedB_payloadWithQ (q : Json) :
    wellFormedB (payloadWithQ q) = questionOkB q := by
  simp [payloadWithQ, wellFormedB, jHasKey, jGetD, jLookup, List.all_cons, goodQuestion,
    descOkB, questionOkB, qtOkB, pyStrip, stripWhile, dropTrailing, pyIsWs,
    pairwiseDistinctB, pyEq, pyHashable, pySetLen, pySetInsert]
  intro _
  decide

lemma questionOkB_mixed (n1 n2 n3 : Int) (h12 : n1 ≠ n2) (h13 : n1 ≠ n3) (h23 : n2 ≠ n3) :
    questionOkB (mixedOptsQuestion n1 n2 n3) = true := by
  simp [mixedOptsQuestion, questionOkB, jGetD, jLookup, qtOkB, pyStrip, stripWhile,
    dropTrailing, pyIsWs, pairwiseDistinctB, pyEq, pyHashable, h12, h13, h23, beq_iff_eq]

/-- C3: validate_quiz_json checks its rules in the documented fixed
order and returns the passing verdict exactly for the payloads
satisfying all rules (the iff with the specification-side rule set
wellFormedB); it rejects 9 or 11 questions, 3 or 5 options, a
duplicate option, an answer not among the options, an over-long
description and a missing title key, each with the corresponding
rule's message, and in multi-violation payloads the earlier rule's
message is the one reported. -/
theorem C3_validator_rules :
    (∀ q : Json, validate_quiz_json q = .ok (true, "") ↔ wellFormedB q = true) ∧
    validate_quiz_json goodPayload = .ok (true, "") ∧
    validate_quiz_json (nQPayload 9) =
      .ok (false, "questions must contain exactly 10 questions.") ∧
    validate_quiz_json (nQPayload 11) =
      .ok (false, "questions must contain exactly 10 questions.") ∧
    validate_quiz_json (payloadWithQ (kOptQuestion [.str "A", .str "B", .str "C"])) =
      .ok (false, "Q1: must have exactly 4 options.") ∧
    validate_quiz_json
      (payloadWithQ (kOptQuestion [.str "A", .str "B", .str "C", .str "D", .str "E"])) =
      .ok (false, "Q1: must have exactly 4 options.") ∧
    validate_quiz_json (payloadWithQ (kOptQuestion [.str "A", .str "A", .str "C", .str "D"])) =
      .ok (false, "Q1: options must be distinct.") ∧
    validate_quiz_json (payloadWithQ (.obj [("question_title", .str "Q"),
      ("question_options", .arr [.str "A", .str "B", .str "C", .str "D"]),
      ("answer", .str "E")])) = .ok (false, "Q1: answer must be one of the options.") ∧
    validate_quiz_json (.obj [("title", .str "T"),
      ("description", .str (String.mk (List.replicate 501 'x'))),
      ("questions", .arr (List.replicate 10 goodQuestion))]) =
      .ok (false, "description must be <= 500 characters.") ∧
    validate_quiz_json (.obj [("description", .str "D"),
      ("questions", .arr (List.replicate 10 goodQuestion))]) =
      .ok (false, "Missing key: title") ∧
    validate_quiz_json (.obj [("description", .str "D"),
      ("questions", .arr (List.replicate 9 goodQuestion))]) =
      .ok (false, "Missing key: title") ∧
    validate_quiz_json (.obj [("title", .str "T"),
      ("description", .str (String.mk (List.replicate 501 'x'))),
      ("questions", .arr (List.replicate 9 goodQuestion))]) =
      .ok (false, "description must be <= 500 characters.") ∧
    validate_quiz_json (payloadWithQ (.obj [("question_title", .str " "),
      ("question_options", .arr [.str "A", .str "B", .str "C"]), ("answer", .str "A")])) =
      .ok (false, "Q1: question_title missing/invalid.") ∧
    validate_quiz_json (.obj [("title", .str "T"), ("description", .str "D"),
      ("questions", .arr ([goodQuestion, kOptQuestion [.str "A", .str "A", .str "C", .str "D"]] ++
        List.replicate 7 goodQuestion ++ [kOptQuestion [.str "A", .str "B", .str "C"]]))]) =
      .ok (false, "Q2: options must be distinct.") := by
  refine ⟨validate_ok_iff, ?_, ?_, ?_, ?_, ?_, ?_, ?_, ?_, ?_, ?_, ?_, ?_, ?_⟩ <;> decide

/-- C4 counterexample: the claim says validate_quiz_json never raises,
including when elements of questions are not objects or when
question_options contains unhashable values — but on exactly those
payloads the function raises (AttributeError at item.get on a
non-dict, TypeError at set() on unhashable options) instead of
returning a verdict pair. -/
theorem C4_counterexample :
    validate_quiz_json (.obj [("title", .str "T"), ("description", .str "D"),
      ("questions", .arr (.num 3 :: List.replicate 9 goodQuestion))]) =
      .error .attributeError ∧
    validate_quiz_json (payloadWithQ (kOptQuestion
      [.arr [.str "A"], .str "B", .str "C", .str "D"])) = .error .typeError ∧
    (∀ verdict reason, validate_quiz_json (.obj [("title", .str "T"), ("description", .str "D"),
      ("questions", .arr (.num 3 :: List.replicate 9 goodQuestion))]) ≠ .ok (verdict, reason)) := by
  refine ⟨by decide, by decide, ?_⟩
  intro b r h
  have hx : validate_quiz_json (.obj [("title", .str "T"), ("description", .str "D"),
      ("questions", .arr (.num 3 :: List.replicate 9 goodQuestion))]) =
      .error .attributeError := by decide
  rw [hx] at h
  exact Except.noConfusion h

/-- C4 (amended): validate_quiz_json returns a (verdict, reason) pair
and does not raise for every decoded JSON value in which every element
of questions is an object whose question_options contain only hashable
values; raising is confined to non-object question elements and
unhashable options, as exhibited by the counterexample. -/
theorem C4_validator_totality (q : Json)
    (h : ∀ item ∈ payloadQuestions q, isObjB item = true ∧
      ∀ o ∈ optsList item, pyHashable o = true) :
    ∃ verdict reason, validate_quiz_json q = .ok (verdict, reason) := by
  obtain ⟨⟨b, r⟩, hbr⟩ := validate_no_raise q h
  exact ⟨b, r, hbr⟩

/-- Witness for C4: the totality theorem applied at the well-formed
payload fixture. -/
theorem C4_validator_totality_witness :
    (∀ item ∈ payloadQuestions goodPayload, isObjB item = true ∧
      ∀ o ∈ optsList item, pyHashable o = true) ∧
    ∃ verdict reason, validate_quiz_json goodPayload = .ok (verdict, reason) :=
  ⟨by decide, C4_validator_totality goodPayload (by decide)⟩

/-- C9: validate_quiz_json performs no check on the value of title
beyond key presence: its verdict is invariant under changing the title
value, and a payload satisfying the other rules is accepted whatever
its title value, an empty string or a non-string included. -/
theorem C9_title_unchecked :
    (∀ (kvs : List (String × Json)) (t1 t2 : Json),
      validate_quiz_json (.obj (("title", t1) :: kvs)) =
        validate_quiz_json (.obj (("title", t2) :: kvs))) ∧
    (∀ t : Json, validate_quiz_json (titledPayload t) = .ok (true, "")) ∧
    validate_quiz_json (titledPayload (.str "")) = .ok (true, "") ∧
    validate_quiz_json (titledPayload (.num 42)) = .ok (true, "") := by
  refine ⟨?_, fun t => rfl, rfl, rfl⟩
  intro kvs t1 t2
  simp [validate_quiz_json, jHasKey, jGetD, jLookup, List.any_cons, List.find?]

/-- C10: question_options need not be strings: with one string option
and three pairwise-distinct numeric options and the answer equal to
the string option, the payload passes validation, and the numeric
options are persisted exactly as provided. -/
theorem C10_nonstring_options (n1 n2 n3 : Int)
    (h12 : n1 ≠ n2) (h13 : n1 ≠ n3) (h23 : n2 ≠ n3) :
    validate_quiz_json (payloadWithQ (mixedOptsQuestion n1 n2 n3)) = .ok (true, "") ∧
    ((save_quiz_to_database noFail 0 "u" (payloadWithQ (mixedOptsQuestion n1 n2 n3))
        ⟨[], []⟩).1.questions.head?.map (fun row => row.question_options)) =
      some (.arr [.str "A", .num n1, .num n2, .num n3]) := by
  constructor
  · rw [validate_ok_iff, wellFormedB_payloadWithQ]
    exact questionOkB_mixed n1 n2 n3 h12 h13 h23
  · rfl

lemma jGetD_not_null (kvs : List (String × Json)) (k : String) (v d2 : Json)
    (h : jGetD kvs k .null = v) (hne : v ≠ .null) : jGetD kvs k d2 = v := by
  unfold jGetD at h ⊢
  cases hl : jLookup kvs k with
  | none =>
    rw [hl] at h
    simp at h
    exact absurd h.symm hne
  | some w =>
    rw [hl] at h
    simpa using h

lemma insertQuestions_ok_shape (fail : Nat → Bool) (quizId : Nat) :
    ∀ (items : List Json) (n : Nat) (db db2 : Db),
    (∀ q ∈ items, isObjB q = true) →
    insertQuestions fail quizId n db items = .ok db2 →
    db2.quizzes = db.quizzes ∧
    db2.questions = db.questions ++ items.map (questionRowOf quizId) := by
  intro items
  induction items with
  | nil =>
    intro n db db2 _ h
    simp only [insertQuestions] at h
    injection h with h
    subst h
    simp
  | cons q rest ih =>
    intro n db db2 hobj h
    have hq : isObjB q = true := hobj q (List.mem_cons_self q rest)
    cases q with
    | obj kvs =>
      simp only [insertQuestions, mkQuestionRow, dbInsertQuestion, Bind.bind, Except.bind] at h
      by_cases hf : fail n = true
      · rw [hf] at h
        simp at h
      · rw [Bool.not_eq_true] at hf
        rw [hf] at h
        rw [if_neg (by decide : ¬(false = true))] at h
        have := ih (n + 1) _ db2 (fun x hx => hobj x (List.mem_cons_of_mem _ hx)) h
        refine ⟨this.1, ?_⟩
        rw [this.2]
        simp [questionRowOf]
    | null => simp [isObjB] at hq
    | bool b => simp [isObjB] at hq
    | num m => simp [isObjB] at hq
    | str a => simp [isObjB] at hq
    | arr l => simp [isObjB] at hq


lemma save_error_state (fail : Nat → Bool) (user : Nat) (url : String) (qj : Json) (db : Db)
    (e : PyExn) (h : (save_quiz_to_database fail user url qj db).2 = .error e) :
    (save_quiz_to_database fail user url qj db).1 = db := by
  unfold save_quiz_to_database at h ⊢
  cases hb : saveBody fail user url qj db with
  | ok r =>
    rw [hb] at h
    simp at h
  | error e2 => simp

lemma wellFormed_facts (q : Json) (h : wellFormedB q = true) :
    ∃ kvs items, q = .obj kvs ∧ jGetD kvs "questions" .null = .arr items ∧
      items.length = 10 ∧ (∀ item ∈ items, questionOkB item = true) ∧
      payloadQuestions q = items := by
  cases q with
  | obj kvs =>
    simp only [wellFormedB, Bool.and_eq_true] at h
    obtain ⟨⟨hks, hdesc⟩, hqs⟩ := h
    cases hq : jGetD kvs "questions" .null with
    | arr items =>
      rw [hq] at hqs
      simp only [Bool.and_eq_true, beq_iff_eq, List.all_eq_true] at hqs
      exact ⟨kvs, items, rfl, hq, hqs.1, hqs.2, by simp [payloadQuestions, hq]⟩
    | null => rw [hq] at hqs; simp at hqs
    | bool b => rw [hq] at hqs; simp at hqs
    | num n => rw [hq] at hqs; simp at hqs
    | str a => rw [hq] at hqs; simp at hqs
    | obj l => rw [hq] at hqs; simp at hqs
  | null => simp [wellFormedB] at h
  | bool b => simp [wellFormedB] at h
  | num n => simp [wellFormedB] at h
  | str a => simp [wellFormedB] at h
  | arr l => simp [wellFormedB] at h

lemma questionOk_isObj (item : Json) (h : questionOkB item = true) : isObjB item = true := by
  cases item <;> simp [questionOkB, isObjB] at h ⊢

lemma saveBody_ok_shape (fail : Nat → Bool) (user : Nat) (url : String) (db : Db)
    (kvs : List (String × Json)) (items : List Json) (r : Db × QuizRow)
    (hqs2 : jGetD kvs "questions" (.arr []) = .arr items)
    (hobj : ∀ q ∈ items, isObjB q = true)
    (hb : saveBody fail user url (.obj kvs) db = .ok r) :
    r.2 = quizRowOf db.quizzes.length user url (.obj kvs) ∧
    r.1.quizzes = db.quizzes ++ [r.2] ∧
    r.1.questions = db.questions ++ items.map (questionRowOf r.2.id) := by
  unfold saveBody at hb
  rw [show mkQuizRow db.quizzes.length user url (.obj kvs) =
    .ok (quizRowOf db.quizzes.length user url (.obj kvs)) from rfl] at hb
  simp only [Bind.bind, Except.bind, dbInsertQuiz] at hb
  by_cases hf : fail 0 = true
  · rw [hf] at hb
    simp at hb
  · rw [Bool.not_eq_true] at hf
    rw [hf, if_neg (by decide : ¬(false = true)), hqs2] at hb
    simp only [pyIter] at hb
    cases hloop : insertQuestions fail (quizRowOf db.quizzes.length user url (.obj kvs)).id 1
        { db with quizzes := db.quizzes ++ [quizRowOf db.quizzes.length user url (.obj kvs)] }
        items with
    | error e2 =>
      rw [hloop] at hb
      simp at hb
    | ok db2 =>
      rw [hloop] at hb
      simp only at hb
      injection hb with hb
      subst hb
      have hshape := insertQuestions_ok_shape fail
        (quizRowOf db.quizzes.length user url (.obj kvs)).id items 1 _ db2 hobj hloop
      refine ⟨rfl, ?_, ?_⟩
      · rw [hshape.1]
      · rw [hshape.2]

lemma save_ok_shape (fail : Nat → Bool) (user : Nat) (url : String) (db : Db)
    (kvs : List (String × Json)) (items : List Json) (quiz : QuizRow)
    (hqs : jGetD kvs "questions" .null = .arr items)
    (hobj : ∀ q ∈ items, isObjB q = true)
    (h : (save_quiz_to_database fail user url (.obj kvs) db).2 = .ok quiz) :
    quiz = quizRowOf db.quizzes.length user url (.obj kvs) ∧
    (save_quiz_to_database fail user url (.obj kvs) db).1.quizzes = db.quizzes ++ [quiz] ∧
    (save_quiz_to_database fail user url (.obj kvs) db).1.questions =
      db.questions ++ items.map (questionRowOf quiz.id) := by
  have hqs2 : jGetD kvs "questions" (.arr []) = .arr items :=
    jGetD_not_null kvs "questions" (.arr items) (.arr [])
      hqs (by intro hc; exact Json.noConfusion hc)
  unfold save_quiz_to_database at h ⊢
  cases hb : saveBody fail user url (.obj kvs) db with
  | error e => rw [hb] at h; simp at h
  | ok r =>
    rw [hb] at h
    simp only at h
    injection h with h
    subst h
    have := saveBody_ok_shape fail user url db kvs items r hqs2 hobj hb
    simpa using this


lemma questionOk_facts (item : Json) (h : questionOkB item = true) :
    ∃ kvs a os, item = .obj kvs ∧ jGetD kvs "answer" .null = .str a ∧
      jGetD kvs "question_options" .null = .arr os ∧ Json.str a ∈ os := by
  cases item with
  | obj kvs =>
    simp only [questionOkB, Bool.and_eq_true] at h
    obtain ⟨hqt, hrest⟩ := h
    cases hopts : jGetD kvs "question_options" .null with
    | arr os =>
      rw [hopts] at hrest
      simp only [Bool.and_eq_true] at hrest
      obtain ⟨⟨⟨-, -⟩, -⟩, hansm⟩ := hrest
      cases hans : jGetD kvs "answer" .null with
      | str a =>
        rw [hans] at hansm
        rw [List.any_eq_true] at hansm
        obtain ⟨o, ho, hpe⟩ := hansm
        cases o with
        | str b =>
          simp only [pyEq, beq_iff_eq] at hpe
          subst hpe
          exact ⟨kvs, a, os, rfl, hans, hopts, ho⟩
        | null => simp [pyEq] at hpe
        | bool b => simp [pyEq] at hpe
        | num n => simp [pyEq] at hpe
        | arr l => simp [pyEq] at hpe
        | obj l => simp [pyEq] at hpe
      | null => rw [hans] at hansm; simp at hansm
      | bool b => rw [hans] at hansm; simp at hansm
      | num n => rw [hans] at hansm; simp at hansm
      | arr l => rw [hans] at hansm; simp at hansm
      | obj l => rw [hans] at hansm; simp at hansm
    | null => rw [hopts] at hrest; simp at hrest
    | bool b => rw [hopts] at hrest; simp at hrest
    | num n => rw [hopts] at hrest; simp at hrest
    | str a => rw [hopts] at hrest; simp at hrest
    | obj l => rw [hopts] at hrest; simp at hrest
  | null => simp [questionOkB] at h
  | bool b => simp [questionOkB] at h
  | num n => simp [questionOkB] at h
  | str a => simp [questionOkB] at h
  | arr l => simp [questionOkB] at h

/-- C2: quiz persistence is all-or-nothing: for every validated
payload, if creating the Quiz row or any Question row fails, the
database state after the attempt is unchanged (no Quiz row and no
Question row from the attempt is visible); on success the Quiz and its
10 Questions are committed together, the Questions in the order
supplied by the payload. -/
theorem C2_atomic_persistence (qj : Json) (fail : Nat → Bool) (user : Nat) (url : String)
    (db : Db) (hv : validate_quiz_json qj = .ok (true, "")) :
    (∀ e, (save_quiz_to_database fail user url qj db).2 = .error e →
      (save_quiz_to_database fail user url qj db).1.quizzes = db.quizzes ∧
      (save_quiz_to_database fail user url qj db).1.questions = db.questions) ∧
    (∀ quiz, (save_quiz_to_database fail user url qj db).2 = .ok quiz →
      (save_quiz_to_database fail user url qj db).1.quizzes = db.quizzes ++ [quiz] ∧
      (save_quiz_to_database fail user url qj db).1.questions =
        db.questions ++ (payloadQuestions qj).map (questionRowOf quiz.id) ∧
      (payloadQuestions qj).length = 10) := by
  have hwf := (validate_ok_iff qj).mp hv
  obtain ⟨kvs, items, rfl, hq, hlen, hok, hpq⟩ := wellFormed_facts _ hwf
  constructor
  · intro e he
    have h1 := save_error_state fail user url _ db e he
    rw [h1]
    exact ⟨rfl, rfl⟩
  · intro quiz hq2
    have hobj : ∀ x ∈ items, isObjB x = true := fun x hx => questionOk_isObj x (hok x hx)
    have hs := save_ok_shape fail user url db kvs items quiz hq hobj hq2
    rw [hpq]
    exact ⟨hs.2.1, hs.2.2, hlen⟩

/-- Witness for C2: a concrete run in which the insert of the fifth
question fails leaves the empty database unchanged. -/
theorem C2_atomic_persistence_witness :
    validate_quiz_json goodPayload = .ok (true, "") ∧
    (save_quiz_to_database (fun n => n == 5) 0 "u" goodPayload ⟨[], []⟩).2 =
      .error (.fault 5) ∧
    (save_quiz_to_database (fun n => n == 5) 0 "u" goodPayload ⟨[], []⟩).1.quizzes = [] ∧
    (save_quiz_to_database (fun n => n == 5) 0 "u" goodPayload ⟨[], []⟩).1.questions = [] := by
  have hv : validate_quiz_json goodPayload = .ok (true, "") := by decide
  have herr : (save_quiz_to_database (fun n => n == 5) 0 "u" goodPayload ⟨[], []⟩).2 =
      .error (.fault 5) := by decide
  have h1 := (C2_atomic_persistence goodPayload (fun n => n == 5) 0 "u" ⟨[], []⟩ hv).1 _ herr
  exact ⟨hv, herr, h1.1, h1.2⟩

/-- C1 (amended): for every payload that passes validate_quiz_json
and is persisted, each stored Question carries the payload's answer
coerced to text and stripped of surrounding whitespace, while its
question_options is stored exactly as provided; the payload's answer
is present verbatim among the stored options, and the STORED answer is
present verbatim among them whenever the payload's answer carries no
surrounding whitespace (the counterexample shows the claim's
unconditional verbatim-membership fails when it does). -/
theorem C1_answer_coercion_storage (qj : Json) (fail : Nat → Bool) (user : Nat) (url : String) (db : Db)
    (hv : validate_quiz_json qj = .ok (true, "")) :
    (∀ quiz, (save_quiz_to_database fail user url qj db).2 = .ok quiz →
      (save_quiz_to_database fail user url qj db).1.questions =
        db.questions ++ (payloadQuestions qj).map (questionRowOf quiz.id)) ∧
    (∀ item ∈ payloadQuestions qj, ∀ quizId : Nat,
      ∃ a os, answerOf item = .str a ∧
        (questionRowOf quizId item).answer = pyStrip a ∧
        (questionRowOf quizId item).question_options = .arr os ∧
        Json.str a ∈ os ∧
        (pyStrip a = a → Json.str ((questionRowOf quizId item).answer) ∈ os)) := by
  have hwf := (validate_ok_iff qj).mp hv
  obtain ⟨kvs, items, rfl, hq, hlen, hok, hpq⟩ := wellFormed_facts _ hwf
  constructor
  · intro quiz hq2
    have hobj : ∀ x ∈ items, isObjB x = true := fun x hx => questionOk_isObj x (hok x hx)
    have hs := save_ok_shape fail user url db kvs items quiz hq hobj hq2
    rw [hpq]
    exact hs.2.2
  · intro item hitem quizId
    rw [hpq] at hitem
    obtain ⟨kvs2, a, os, rfl, hans, hopts, hmem⟩ := questionOk_facts item (hok item hitem)
    have hans2 : jGetD kvs2 "answer" (.str "") = .str a :=
      jGetD_not_null kvs2 "answer" (.str a) (.str "") hans
        (by intro hc; exact Json.noConfusion hc)
    have hopts2 : jGetD kvs2 "question_options" (.arr []) = .arr os :=
      jGetD_not_null kvs2 "question_options" (.arr os) (.arr []) hopts
        (by intro hc; exact Json.noConfusion hc)
    refine ⟨a, os, ?_, ?_, ?_, hmem, ?_⟩
    · simp [answerOf, hans]
    · simp [questionRowOf, hans2, pyStr]
    · simp [questionRowOf, hopts2]
    · intro hstr
      have : (questionRowOf quizId (Json.obj kvs2)).answer = pyStrip a := by
        simp [questionRowOf, hans2, pyStr]
      rw [this, hstr]
      exact hmem


/-- Witness for C1: the amended theorem applied at the well-formed
payload fixture and its question. -/
theorem C1_answer_coercion_storage_witness :
    validate_quiz_json goodPayload = .ok (true, "") ∧
    goodQuestion ∈ payloadQuestions goodPayload ∧
    ∃ a os, answerOf goodQuestion = .str a ∧
      (questionRowOf 0 goodQuestion).answer = pyStrip a ∧
      (questionRowOf 0 goodQuestion).question_options = .arr os ∧
      Json.str a ∈ os ∧
      (pyStrip a = a → Json.str ((questionRowOf 0 goodQuestion).answer) ∈ os) := by
  have hv : validate_quiz_json goodPayload = .ok (true, "") := by decide
  have hmem : goodQuestion ∈ payloadQuestions goodPayload := by
    rw [show payloadQuestions goodPayload = List.replicate 10 goodQuestion from rfl]
    exact List.mem_replicate.mpr ⟨by decide, rfl⟩
  exact ⟨hv, hmem, (C1_answer_coercion_storage goodPayload noFail 0 "u" ⟨[], []⟩ hv).2 goodQuestion hmem 0⟩

/-- C1 counterexample: a validated payload whose answer is " A "
matched verbatim by the option " A " is stored with the answer
stripped to "A" while the options keep " A ", so the stored answer is
not an element of the stored question_options. -/
theorem C1_counterexample :
    validate_quiz_json paddedAnswerPayload = .ok (true, "") ∧
    ((save_quiz_to_database noFail 0 "u" paddedAnswerPayload ⟨[], []⟩).1.questions.head?.map
      (fun row => (row.answer, row.question_options))) =
      some ("A", .arr [.str " A ", .str "B", .str "C", .str "D"]) ∧
    ¬ (Json.str "A" ∈ [Json.str " A ", Json.str "B", Json.str "C", Json.str "D"]) := by
  refine ⟨by decide, rfl, ?_⟩
  intro h
  simp at h


/-- Witness for C3: the acceptance characterization applied at the
well-formed payload fixture. -/
theorem C3_validator_rules_witness :
    wellFormedB goodPayload = true ∧ validate_quiz_json goodPayload = .ok (true, "") :=
  ⟨by decide, (C3_validator_rules.1 goodPayload).mpr (by decide)⟩

/-- Witness for C10: the theorem applied at the distinct numeric
options 1, 2, 3. -/
theorem C10_nonstring_options_witness :
    ((1 : Int) ≠ 2 ∧ (1 : Int) ≠ 3 ∧ (2 : Int) ≠ 3) ∧
    validate_quiz_json (payloadWithQ (mixedOptsQuestion 1 2 3)) = .ok (true, "") ∧
    ((save_quiz_to_database noFail 0 "u" (payloadWithQ (mixedOptsQuestion 1 2 3))
        ⟨[], []⟩).1.questions.head?.map (fun row => row.question_options)) =
      some (.arr [.str "A", .num 1, .num 2, .num 3]) := by
  have h := C10_nonstring_options 1 2 3 (by decide) (by decide) (by decide)
  exact ⟨⟨by decide, by decide, by decide⟩, h.1, h.2⟩

lemma splitOnChar_ne_nil (c : Char) (l : List Char) : splitOnChar c l ≠ [] := by
  cases l with
  | nil => simp [splitOnChar]
  | cons x xs =>
    simp only [splitOnChar]
    by_cases h : (x == c) = true
    · simp [h]
    · rw [Bool.not_eq_true] at h
      rw [h]
      rw [if_neg (by decide : ¬(false = true))]
      cases splitOnChar c xs <;> simp

lemma splitOnChar_headD (c : Char) (l : List Char) :
    (splitOnChar c l).headD [] = l.takeWhile (fun d => !(d == c)) := by
  induction l with
  | nil => simp [splitOnChar]
  | cons x xs ih =>
    simp only [splitOnChar, List.takeWhile_cons]
    by_cases h : (x == c) = true
    · simp [h]
    · rw [Bool.not_eq_true] at h
      rw [h]
      rw [if_neg (by decide : ¬(false = true))]
      simp only [Bool.not_false, if_pos rfl]
      cases hs : splitOnChar c xs with
      | nil => exact absurd hs (splitOnChar_ne_nil c xs)
      | cons hh tt =>
        rw [hs] at ih
        simp at ih ⊢
        rw [ih]

lemma firstNonemptySeg_dropWhile (path : List Char) :
    firstNonemptySeg path = firstNonemptySeg (path.dropWhile (fun d => d == '/')) := by
  induction path with
  | nil => rfl
  | cons x xs ih =>
    by_cases h : (x == '/') = true
    · rw [List.dropWhile_cons]
      rw [h]
      rw [if_pos rfl]
      rw [← ih]
      simp [firstNonemptySeg, splitOnChar, h, List.find?_cons]
    · rw [Bool.not_eq_true] at h
      rw [List.dropWhile_cons]
      rw [h]
      rw [if_neg (by decide : ¬(false = true))]

lemma dropWhile_head_false (q : Char → Bool) (l : List Char) (a : Char) (t : List Char)
    (h : l.dropWhile q = a :: t) : q a = false := by
  induction l with
  | nil => simp at h
  | cons x xs ih =>
    by_cases hx : q x = true
    · rw [List.dropWhile_cons_of_pos hx] at h
      exact ih h
    · rw [Bool.not_eq_true] at hx
      rw [List.dropWhile_cons_of_neg (by simp [hx])] at h
      injection h with h1 h2
      subst h1
      exact hx

lemma takeWhile_append_all_fail (p : Char → Bool) (d t : List Char)
    (ht : ∀ x ∈ t, p x = false) : (d ++ t).takeWhile p = d.takeWhile p := by
  rw [List.takeWhile_append]
  by_cases h : (d.takeWhile p).length = d.length
  · rw [if_pos h]
    have hto : t.takeWhile p = [] := by
      cases t with
      | nil => rfl
      | cons y ys =>
        rw [List.takeWhile_cons]
        rw [ht y (List.mem_cons_self y ys)]
        simp
    rw [hto]
    simp only [List.append_nil]
    exact ((List.takeWhile_prefix p).eq_of_length h).symm
  · rw [if_neg h]


lemma dropTrailing_decomp (q : Char → Bool) (l : List Char) :
    l = dropTrailing q l ++ (l.reverse.takeWhile q).reverse ∧
      ∀ x ∈ (l.reverse.takeWhile q).reverse, q x = true := by
  constructor
  · conv_lhs => rw [← List.reverse_reverse l]
    conv_lhs => rw [← List.takeWhile_append_dropWhile (p := q) (l := l.reverse)]
    rw [List.reverse_append]
    rfl
  · intro x hx
    rw [List.mem_reverse] at hx
    exact List.mem_takeWhile_imp hx

lemma takeWhile_dropTrailing (q : Char → Bool) (l : List Char) :
    (dropTrailing q l).takeWhile (fun d => !(q d)) = l.takeWhile (fun d => !(q d)) := by
  obtain ⟨hl, ht⟩ := dropTrailing_decomp q l
  conv_rhs => rw [hl]
  rw [takeWhile_append_all_fail]
  intro x hx
  simp [ht x hx]

lemma strip_split (path : List Char) :
    (if ((splitOnChar '/' (stripWhile (fun d => d == '/') path)).headD []).isEmpty then none
     else some ((splitOnChar '/' (stripWhile (fun d => d == '/') path)).headD [])) =
      firstNonemptySeg path := by
  rw [splitOnChar_headD]
  unfold stripWhile
  rw [takeWhile_dropTrailing]
  rw [firstNonemptySeg_dropWhile]
  cases hmm : path.dropWhile (fun d => d == '/') with
  | nil => simp [firstNonemptySeg, splitOnChar]
  | cons a t =>
    have ha : (a == '/') = false := dropWhile_head_false _ path a t hmm
    rw [List.takeWhile_cons]
    rw [ha]
    simp only [Bool.not_false, if_pos rfl]
    rw [if_neg (by simp)]
    cases hs : splitOnChar '/' t with
    | nil => exact absurd hs (splitOnChar_ne_nil '/' t)
    | cons hh tt =>
      have hhd := splitOnChar_headD '/' t
      rw [hs] at hhd
      simp only [List.headD_cons] at hhd
      simp only [firstNonemptySeg, splitOnChar, ha]
      rw [if_neg (by decide : ¬(false = true))]
      rw [hs]
      rw [List.find?_cons]
      simp only [List.isEmpty_cons, Bool.not_false]
      rw [hhd]
      simp


/-- C5 (amended): for every URL whose parsed host lower-cases to the
short-link host youtu.be exactly, the resolver returns the first
non-empty path segment, and the not-resolvable signal when no
non-empty segment exists (never an empty-string identifier); the
counterexample shows the www variant www.youtu.be, although on the
allow-list, is NOT handled by the short-link rule and falls through to
the watch/shorts/embed handling. -/
theorem C5_shortlink_resolution (url : List Char) (p : ParsedUrl)
    (hp : pyUrlparse url = some p)
    (hh : p.netloc.map Char.toLower = "youtu.be".data) :
    extractVidChars url = firstNonemptySeg p.path ∧
    (firstNonemptySeg p.path = none → extractVidChars url = none) := by
  have h1 : extractVidChars url = resolveParsed p := by
    unfold extractVidChars
    rw [hp]
  have h2 : resolveParsed p = firstNonemptySeg p.path := by
    unfold resolveParsed
    rw [hh]
    rw [show youtubeDomains.contains "youtu.be".data = true from by decide]
    rw [show (("youtu.be".data == "youtu.be".data) : Bool) = true from by decide]
    simp only [Bool.not_true, if_neg (by decide : ¬(false = true)), if_pos rfl]
    exact strip_split p.path
  rw [h1, h2]
  exact ⟨rfl, fun h => h⟩

/-- C5 counterexample: the URL https://www.youtu.be/abc123 parses to
the allow-listed host www.youtu.be with first non-empty path segment
abc123, yet the resolver returns the not-resolvable signal rather than
that segment, contradicting the claim for the www variant of the
short-link host. -/
theorem C5_counterexample :
    ((pyUrlparse "https://www.youtu.be/abc123".data).map
      (fun p => p.netloc.map Char.toLower)) = some "www.youtu.be".data ∧
    ((pyUrlparse "https://www.youtu.be/abc123".data).map
      (fun p => firstNonemptySeg p.path)) = some (some "abc123".data) ∧
    extract_video_id "https://www.youtu.be/abc123" = none := by
  refine ⟨by decide, by decide, by decide⟩

/-- Witness for C5: the amended theorem applied to
https://youtu.be/abc123. -/
theorem C5_shortlink_resolution_witness :
    pyUrlparse "https://youtu.be/abc123".data =
      some ⟨"https".data, "youtu.be".data, "/abc123".data, [], [], []⟩ ∧
    ("youtu.be".data).map Char.toLower = "youtu.be".data ∧
    extractVidChars "https://youtu.be/abc123".data = firstNonemptySeg "/abc123".data := by
  have h1 : pyUrlparse "https://youtu.be/abc123".data =
      some ⟨"https".data, "youtu.be".data, "/abc123".data, [], [], []⟩ := by decide
  exact ⟨h1, by decide,
    (C5_shortlink_resolution "https://youtu.be/abc123".data ⟨"https".data, "youtu.be".data,
      "/abc123".data, [], [], []⟩ h1 (by decide)).1⟩


lemma takeWhile_eq_self_of_all (p : Char → Bool) (l : List Char) (h : ∀ x ∈ l, p x = true) :
    l.takeWhile p = l := by
  induction l with
  | nil => rfl
  | cons x xs ih =>
    rw [List.takeWhile_cons, h x (List.mem_cons_self x xs)]
    rw [if_pos rfl]
    rw [ih (fun y hy => h y (List.mem_cons_of_mem x hy))]

lemma matchSegmentAfter_some_of (lit seg rest : List Char)
    (hseg : seg ≠ []) (hns : ∀ x ∈ seg, ¬ x = '/')
    (hrest : rest = [] ∨ ∃ r2, rest = '/' :: r2) :
    matchSegmentAfter lit (lit ++ seg ++ rest) = some seg := by
  unfold matchSegmentAfter
  rw [List.append_assoc]
  rw [if_pos (List.isPrefixOf_iff_prefix.mpr (List.prefix_append lit (seg ++ rest)))]
  rw [List.drop_left]
  have htw : (seg ++ rest).takeWhile (fun c => !(c == '/')) = seg := by
    rw [List.takeWhile_append]
    have hsegtw : seg.takeWhile (fun c => !(c == '/')) = seg :=
      takeWhile_eq_self_of_all _ seg (fun x hx => by simp [hns x hx])
    rw [hsegtw]
    rw [if_pos rfl]
    rcases hrest with rfl | ⟨r2, rfl⟩
    · simp
    · simp [List.takeWhile_cons]
  rw [htw]
  rw [if_neg (by simp [hseg])]

lemma matchSegmentAfter_none_of (lit path : List Char)
    (h : ∀ seg rest, ¬(path = lit ++ seg ++ rest ∧ seg ≠ [] ∧ (∀ x ∈ seg, ¬ x = '/') ∧
      (rest = [] ∨ ∃ r2, rest = '/' :: r2))) :
    matchSegmentAfter lit path = none := by
  unfold matchSegmentAfter
  by_cases hpre : lit.isPrefixOf path = true
  · rw [if_pos hpre]
    by_cases hemp : ((path.drop lit.length).takeWhile (fun c => !(c == '/'))).isEmpty = true
    · rw [if_pos hemp]
    · exfalso
      obtain ⟨t, htl⟩ := List.isPrefixOf_iff_prefix.mp hpre
      have hdrop : path.drop lit.length = t := by
        rw [← htl]
        exact List.drop_left lit t
      apply h ((path.drop lit.length).takeWhile (fun c => !(c == '/')))
        ((path.drop lit.length).dropWhile (fun c => !(c == '/')))
      refine ⟨?_, ?_, ?_, ?_⟩
      · rw [List.append_assoc, List.takeWhile_append_dropWhile, hdrop, htl]
      · intro hc
        rw [hc] at hemp
        simp at hemp
      · intro x hx
        have := List.mem_takeWhile_imp hx
        simp at this
        exact this
      · cases hd : (path.drop lit.length).dropWhile (fun c => !(c == '/')) with
        | nil => exact Or.inl rfl
        | cons b r2 =>
          refine Or.inr ⟨r2, ?_⟩
          have hb := dropWhile_head_false _ _ b r2 hd
          simp only [Bool.not_eq_false'] at hb
          rw [show b = '/' from by simpa [beq_iff_eq] using hb]
  · rw [Bool.not_eq_true] at hpre
    rw [hpre]
    rw [if_neg (by decide : ¬(false = true))]


lemma resolve_canonical (url : List Char) (p : ParsedUrl)
    (hp : pyUrlparse url = some p)
    (hh : p.netloc.map Char.toLower = "youtube.com".data ∨
          p.netloc.map Char.toLower = "www.youtube.com".data) :
    extractVidChars url =
      (if p.path == "/watch".data then watchV p.query
       else match matchSegmentAfter "/shorts/".data p.path with
            | some seg => some seg
            | none => matchSegmentAfter "/embed/".data p.path) := by
  have h1 : extractVidChars url = resolveParsed p := by
    unfold extractVidChars
    rw [hp]
  rw [h1]
  unfold resolveParsed
  rcases hh with hh | hh <;> rw [hh]
  · rw [show youtubeDomains.contains "youtube.com".data = true from by decide]
    rw [show (("youtube.com".data == "youtu.be".data) : Bool) = false from by decide]
    rw [if_neg (by decide : ¬((!true) = true))]
    rw [if_neg (by decide : ¬(false = true))]
  · rw [show youtubeDomains.contains "www.youtube.com".data = true from by decide]
    rw [show (("www.youtube.com".data == "youtu.be".data) : Bool) = false from by decide]
    rw [if_neg (by decide : ¬((!true) = true))]
    rw [if_neg (by decide : ¬(false = true))]

lemma shorts_not_match_embed (X : List Char) :
    matchSegmentAfter "/shorts/".data ("/embed/".data ++ X) = none := by
  unfold matchSegmentAfter
  rw [if_neg ?_]
  rw [show ("/shorts/".data : List Char) = ['/', 's', 'h', 'o', 'r', 't', 's', '/'] from rfl]
  rw [show ("/embed/".data : List Char) = ['/', 'e', 'm', 'b', 'e', 'd', '/'] from rfl]
  simp [List.isPrefixOf, List.cons_append]

lemma prefixed_ne_watch (lit X : List Char) (h7 : 7 ≤ lit.length) :
    ((lit ++ X == "/watch".data) : Bool) = false := by
  rw [show (("/watch".data : List Char)) = ['/', 'w', 'a', 't', 'c', 'h'] from rfl]
  rw [Bool.eq_false_iff]
  intro hc
  rw [beq_iff_eq] at hc
  have := congrArg List.length hc
  simp [List.length_append] at this
  omega


lemma path_ne_watch (lit seg rest : List Char) (h7 : 7 ≤ lit.length) :
    ((lit ++ seg ++ rest == "/watch".data) : Bool) = false := by
  rw [List.append_assoc]
  exact prefixed_ne_watch lit (seg ++ rest) h7

lemma shorts_not_match_embed2 (seg rest : List Char) :
    matchSegmentAfter "/shorts/".data ("/embed/".data ++ seg ++ rest) = none := by
  rw [List.append_assoc]
  exact shorts_not_match_embed (seg ++ rest)

/-- C6: the resolver returns an identifier or the not-resolvable
signal for every input string and never raises; on the canonical hosts
youtube.com and www.youtube.com, a path of exactly /watch yields the
value of the first query parameter named v (absent v fails), paths
/shorts/<segment> and /embed/<segment> yield the segment, any other
path fails, and any unrecognized host fails; with the specification's
three concrete examples. -/
theorem C6_resolver_contract :
    (∀ s : String, extract_video_id s = none ∨ ∃ v, extract_video_id s = some v) ∧
    (∀ (url : List Char) (p : ParsedUrl), pyUrlparse url = some p →
      (p.netloc.map Char.toLower = "youtube.com".data ∨
       p.netloc.map Char.toLower = "www.youtube.com".data) →
      p.path = "/watch".data →
      (∀ kv, (parseQsl p.query).find? (fun kv2 => kv2.1 == "v".data) = some kv →
        extractVidChars url = some kv.2) ∧
      ((∀ kv ∈ parseQsl p.query, ¬ kv.1 = "v".data) → extractVidChars url = none)) ∧
    (∀ (url : List Char) (p : ParsedUrl), pyUrlparse url = some p →
      (p.netloc.map Char.toLower = "youtube.com".data ∨
       p.netloc.map Char.toLower = "www.youtube.com".data) →
      ∀ seg rest, seg ≠ [] → (∀ x ∈ seg, ¬ x = '/') →
        (rest = [] ∨ ∃ r2, rest = '/' :: r2) →
        (p.path = "/shorts/".data ++ seg ++ rest → extractVidChars url = some seg) ∧
        (p.path = "/embed/".data ++ seg ++ rest → extractVidChars url = some seg)) ∧
    (∀ (url : List Char) (p : ParsedUrl), pyUrlparse url = some p →
      (p.netloc.map Char.toLower = "youtube.com".data ∨
       p.netloc.map Char.toLower = "www.youtube.com".data) →
      p.path ≠ "/watch".data →
      (∀ seg rest, ¬(p.path = "/shorts/".data ++ seg ++ rest ∧ seg ≠ [] ∧
        (∀ x ∈ seg, ¬ x = '/') ∧ (rest = [] ∨ ∃ r2, rest = '/' :: r2))) →
      (∀ seg rest, ¬(p.path = "/embed/".data ++ seg ++ rest ∧ seg ≠ [] ∧
        (∀ x ∈ seg, ¬ x = '/') ∧ (rest = [] ∨ ∃ r2, rest = '/' :: r2))) →
      extractVidChars url = none) ∧
    (∀ (url : List Char) (p : ParsedUrl), pyUrlparse url = some p →
      ¬(p.netloc.map Char.toLower = "youtube.com".data ∨
        p.netloc.map Char.toLower = "www.youtube.com".data ∨
        p.netloc.map Char.toLower = "youtu.be".data ∨
        p.netloc.map Char.toLower = "www.youtu.be".data) →
      extractVidChars url = none) ∧
    extract_video_id "https://youtu.be/abc123" = some "abc123" ∧
    extract_video_id "https://www.youtube.com/watch?v=XYZ" = some "XYZ" ∧
    extract_video_id "https://vimeo.com/123" = none := by
  refine ⟨?_, ?_, ?_, ?_, ?_, by decide, by decide, by decide⟩
  · intro s
    cases h : extract_video_id s with
    | none => exact Or.inl rfl
    | some v => exact Or.inr ⟨v, rfl⟩
  · intro url p hp hh hpath
    rw [resolve_canonical url p hp hh, hpath]
    rw [if_pos (by decide : (("/watch".data == "/watch".data) : Bool) = true)]
    constructor
    · intro kv hkv
      unfold watchV
      rw [hkv]
      rfl
    · intro hnone
      have hfn : (parseQsl p.query).find? (fun kv2 => kv2.1 == "v".data) = none := by
        rw [List.find?_eq_none]
        intro kv hkv hc
        rw [beq_iff_eq] at hc
        exact hnone kv hkv hc
      unfold watchV
      rw [hfn]
      rfl
  · intro url p hp hh seg rest hseg hns hrest
    constructor
    · intro hpath
      rw [resolve_canonical url p hp hh, hpath]
      rw [path_ne_watch "/shorts/".data seg rest (by decide)]
      rw [if_neg (by decide : ¬(false = true))]
      rw [matchSegmentAfter_some_of "/shorts/".data seg rest hseg hns hrest]
    · intro hpath
      rw [resolve_canonical url p hp hh, hpath]
      rw [path_ne_watch "/embed/".data seg rest (by decide)]
      rw [if_neg (by decide : ¬(false = true))]
      rw [shorts_not_match_embed2 seg rest]
      exact matchSegmentAfter_some_of "/embed/".data seg rest hseg hns hrest
  · intro url p hp hh hwatch hshorts hembed
    rw [resolve_canonical url p hp hh]
    rw [show ((p.path == "/watch".data) : Bool) = false from by
      rw [Bool.eq_false_iff]
      intro hc
      exact hwatch (by rwa [beq_iff_eq] at hc)]
    rw [if_neg (by decide : ¬(false = true))]
    have h1 := matchSegmentAfter_none_of "/shorts/".data p.path hshorts
    have h2 := matchSegmentAfter_none_of "/embed/".data p.path hembed
    simp [h1, h2]
  · intro url p hp hh
    have h1 : extractVidChars url = resolveParsed p := by
      unfold extractVidChars
      rw [hp]
    rw [h1]
    unfold resolveParsed
    push_neg at hh
    have hc : youtubeDomains.contains (p.netloc.map Char.toLower) = false := by
      rw [Bool.eq_false_iff]
      intro hmem
      have := List.elem_iff.mp hmem
      simp only [youtubeDomains, List.mem_cons, List.not_mem_nil, or_false] at this
      rcases this with h | h | h | h
      · exact hh.1 h
      · exact hh.2.1 h
      · exact hh.2.2.1 h
      · exact hh.2.2.2 h
    rw [hc]
    rw [if_pos (by decide : ((!false) : Bool) = true)]


/-- Witness for C6: the watch clause applied to
https://www.youtube.com/watch?v=XYZ. -/
theorem C6_resolver_contract_witness :
    pyUrlparse "https://www.youtube.com/watch?v=XYZ".data =
      some ⟨"https".data, "www.youtube.com".data, "/watch".data, [], "v=XYZ".data, []⟩ ∧
    (parseQsl "v=XYZ".data).find? (fun kv2 => kv2.1 == "v".data) =
      some ("v".data, "XYZ".data) ∧
    extractVidChars "https://www.youtube.com/watch?v=XYZ".data = some "XYZ".data := by
  have h1 : pyUrlparse "https://www.youtube.com/watch?v=XYZ".data =
      some ⟨"https".data, "www.youtube.com".data, "/watch".data, [], "v=XYZ".data, []⟩ := by
    decide
  have h2 : (parseQsl "v=XYZ".data).find? (fun kv2 => kv2.1 == "v".data) =
      some ("v".data, "XYZ".data) := by decide
  exact ⟨h1, h2, (C6_resolver_contract.2.1 _ _ h1 (Or.inr (by decide)) (by decide)).1 _ h2⟩

lemma dropWhile_of_head_false (p : Char → Bool) (l : List Char) (a : Char)
    (hh : l.head? = some a) (hp : p a = false) : l.dropWhile p = l := by
  cases l with
  | nil => simp at hh
  | cons x xs =>
    simp only [List.head?_cons, Option.some.injEq] at hh
    subst hh
    rw [List.dropWhile_cons, hp]
    rw [if_neg (by decide : ¬(false = true))]

lemma stripWhile_of_ends (p : Char → Bool) (l : List Char) (a b : Char)
    (hh : l.head? = some a) (hp : p a = false)
    (hl : l.getLast? = some b) (hq : p b = false) : stripWhile p l = l := by
  unfold stripWhile dropTrailing
  rw [dropWhile_of_head_false p l a hh hp]
  rw [dropWhile_of_head_false p l.reverse b (by rw [List.head?_reverse]; exact hl) hq]
  exact List.reverse_reverse l

lemma stripWhile_cons_of_pos (p : Char → Bool) (a : Char) (l : List Char) (hp : p a = true) :
    stripWhile p (a :: l) = stripWhile p l := by
  unfold stripWhile
  rw [List.dropWhile_cons, hp]
  rw [if_pos rfl]

lemma dropTrailing_concat_of_pos (p : Char → Bool) (b : Char) (l : List Char)
    (hp : p b = true) : dropTrailing p (l ++ [b]) = dropTrailing p l := by
  unfold dropTrailing
  rw [List.reverse_append]
  simp only [List.reverse_cons, List.reverse_nil, List.nil_append, List.singleton_append]
  rw [List.dropWhile_cons, hp]
  rw [if_pos rfl]

lemma stripWhile_concat_of_pos (p : Char → Bool) (b : Char) (l : List Char)
    (hp : p b = true) : stripWhile p (l ++ [b]) = stripWhile p l := by
  unfold stripWhile
  rw [List.dropWhile_append]
  by_cases h : (l.dropWhile p).isEmpty = true
  · rw [if_pos h]
    rw [show ([b] : List Char).dropWhile p = [] from by
      rw [show ([b] : List Char) = b :: [] from rfl]
      rw [List.dropWhile_cons, hp]
      simp]
    rw [List.isEmpty_iff] at h
    rw [h]
  · rw [if_neg h]
    exact dropTrailing_concat_of_pos p b (l.dropWhile p) hp

lemma isPrefixOf_head (r l : List Char) (c : Char)
    (h : (c :: r).isPrefixOf l = true) : l.head? = some c := by
  cases l with
  | nil => simp [List.isPrefixOf] at h
  | cons x xs =>
    simp only [List.isPrefixOf, Bool.and_eq_true, beq_iff_eq] at h
    rw [h.1]
    rfl


lemma dropTrailing_of_last_false (p : Char → Bool) (l : List Char) (b : Char)
    (hl : l.getLast? = some b) (hp : p b = false) : dropTrailing p l = l := by
  unfold dropTrailing
  rw [dropWhile_of_head_false p l.reverse b (by rw [List.head?_reverse]; exact hl) hp]
  exact List.reverse_reverse l

/-- C7: for every JSON text t — one not beginning or ending with a
backtick, in particular not opening with a fence after trimming, as no
JSON value does — post-processing the fenced response composed of the
marker line, t and a closing fence yields exactly the post-processed
unfenced t, hence the same parsed object under any JSON parser. -/
theorem C7_fenced_equivalence (t : List Char)
    (h1 : t.head? ≠ some '`')
    (h2 : t.getLast? ≠ some '`')
    (h3 : (stripWhile pyIsWs t).head? ≠ some '`') :
    geminiPostChars ("```json\n".data ++ t ++ "\n```".data) = geminiPostChars t ∧
    ∀ loads : String → Option Json,
      loads (geminiPostprocess (String.mk ("```json\n".data ++ t ++ "\n```".data))) =
        loads (geminiPostprocess (String.mk t)) := by
  have hmain : geminiPostChars ("```json\n".data ++ t ++ "\n```".data) =
      geminiPostChars t := by
    have hstrip : stripWhile pyIsWs ("```json\n".data ++ t ++ "\n```".data) =
        "```json\n".data ++ t ++ "\n```".data := by
      apply stripWhile_of_ends pyIsWs _ '`' '`'
      · rw [show ("```json\n".data ++ t ++ "\n```".data) =
          '`' :: ("``json\n".data ++ t ++ "\n```".data) from rfl]
        rfl
      · decide
      · rw [List.getLast?_append]
        rfl
      · decide
    have hdw : ("```json\n".data ++ t ++ "\n```".data).dropWhile (fun d => d == '`') =
        "json\n".data ++ t ++ "\n```".data := by
      rw [show ("```json\n".data ++ t ++ "\n```".data) =
        '`' :: '`' :: '`' :: ("json\n".data ++ t ++ "\n```".data) from rfl]
      simp [List.dropWhile_cons]
    have hshape : ("json\n".data ++ t ++ "\n```".data) =
        (("json\n".data ++ t ++ ['\n']) ++ ['`', '`']) ++ ['`'] := by
      simp [List.append_assoc]
    have hdt : dropTrailing (fun d => d == '`') ("json\n".data ++ t ++ "\n```".data) =
        "json\n".data ++ t ++ ['\n'] := by
      rw [hshape]
      rw [dropTrailing_concat_of_pos _ _ _ (by decide)]
      rw [show (("json\n".data ++ t ++ ['\n']) ++ ['`', '`']) =
        (("json\n".data ++ t ++ ['\n']) ++ ['`']) ++ ['`'] from by simp [List.append_assoc]]
      rw [dropTrailing_concat_of_pos _ _ _ (by decide)]
      rw [dropTrailing_concat_of_pos _ _ _ (by decide)]
      apply dropTrailing_of_last_false _ _ '\n'
      · rw [List.getLast?_append]
        rfl
      · decide
    have hpre : ("```json".data.isPrefixOf ("```json\n".data ++ t ++ "\n```".data)) = true := by
      rw [show ("```json\n".data ++ t ++ "\n```".data) =
        '`' :: '`' :: '`' :: 'j' :: 's' :: 'o' :: 'n' :: '\n' :: (t ++ "\n```".data) from rfl]
      simp [List.isPrefixOf]
    have hrf : replaceFirstL "json".data [] ("json\n".data ++ t ++ ['\n']) =
        '\n' :: (t ++ ['\n']) := by
      rw [show ("json\n".data ++ t ++ ['\n']) =
        'j' :: 's' :: 'o' :: 'n' :: '\n' :: (t ++ ['\n']) from rfl]
      rw [show replaceFirstL "json".data [] ('j' :: 's' :: 'o' :: 'n' :: '\n' :: (t ++ ['\n'])) =
        if "json".data.isPrefixOf ('j' :: 's' :: 'o' :: 'n' :: '\n' :: (t ++ ['\n'])) then
          [] ++ ('j' :: 's' :: 'o' :: 'n' :: '\n' :: (t ++ ['\n'])).drop "json".data.length
        else 'j' :: replaceFirstL "json".data [] ('s' :: 'o' :: 'n' :: '\n' :: (t ++ ['\n']))
        from rfl]
      rw [if_pos (by simp [List.isPrefixOf])]
      rfl
    have hunf : geminiPostChars t = stripWhile pyIsWs t := by
      unfold geminiPostChars
      rw [if_neg ?_]
      intro hc
      exact h3 (isPrefixOf_head _ _ '`' hc)
    rw [hunf]
    unfold geminiPostChars
    rw [hstrip, hpre]
    rw [if_pos rfl]
    have hsc : stripWhile (fun c => c == '`') ("```json\n".data ++ t ++ "\n```".data) =
        "json\n".data ++ t ++ ['\n'] := by
      unfold stripWhile
      rw [hdw]
      exact hdt
    rw [hsc, hrf]
    rw [stripWhile_cons_of_pos pyIsWs '\n' (t ++ ['\n']) (by decide)]
    exact stripWhile_concat_of_pos pyIsWs '\n' t (by decide)

  refine ⟨hmain, ?_⟩
  intro loads
  unfold geminiPostprocess
  rw [show (String.mk ("```json\n".data ++ t ++ "\n```".data)).data =
    "```json\n".data ++ t ++ "\n```".data from rfl]
  rw [show (String.mk t).data = t from rfl]
  rw [hmain]


/-- Witness for C7: the equivalence applied to the JSON text [1, 2],
with the String-level post-processing evaluated on both sides. -/
theorem C7_fenced_equivalence_witness :
    ("[1, 2]".data.head? ≠ some '`' ∧ "[1, 2]".data.getLast? ≠ some '`' ∧
      (stripWhile pyIsWs "[1, 2]".data).head? ≠ some '`') ∧
    geminiPostChars ("```json\n".data ++ "[1, 2]".data ++ "\n```".data) =
      geminiPostChars "[1, 2]".data ∧
    geminiPostprocess "```json\n[1, 2]\n```" = "[1, 2]" ∧
    geminiPostprocess "[1, 2]" = "[1, 2]" := by
  refine ⟨⟨by decide, by decide, by decide⟩, ?_, by decide, by decide⟩
  exact (C7_fenced_equivalence "[1, 2]".data (by decide) (by decide) (by decide)).1

/-- C8: the orchestrator fails closed with distinguishable outcomes in
sequence: an unresolvable URL yields the invalid-URL ValueError before
any acquisition work (no external action performed); an empty-after-
trimming transcript yields the transcription-empty RuntimeError before
any generation call; a validation failure yields a ValueError carrying
the violated rule's message; acquisition and AI-service faults bubble
up as the exact exception raised; on success the persisted Quiz of the
save is returned. -/
theorem C8_pipeline_failure_order (env : PipelineEnv) (fail : Nat → Bool) (user : Nat)
    (videoUrl : String) (db : Db) :
    (extract_video_id videoUrl = none →
      create_quiz_from_youtube env fail user videoUrl db =
        (db, .error (.valueError "Invalid YouTube URL."), [])) ∧
    (∀ v e, extract_video_id videoUrl = some v → v ≠ "" →
      env.ytdl videoUrl = .otherFault e →
      create_quiz_from_youtube env fail user videoUrl db =
        (db, .error e, [.download])) ∧
    (∀ v t, extract_video_id videoUrl = some v → v ≠ "" →
      env.ytdl videoUrl = .success → env.audioExists = true →
      env.whisper "tmp/audio.mp3" = .ok t → pyStrip t = "" →
      create_quiz_from_youtube env fail user videoUrl db =
        (db, .error (.runtimeError "Transcription failed."), [.download, .transcribe])) ∧
    (∀ v t e, extract_video_id videoUrl = some v → v ≠ "" →
      env.ytdl videoUrl = .success → env.audioExists = true →
      env.whisper "tmp/audio.mp3" = .ok t → pyStrip t ≠ "" →
      env.apiKeySet = true →
      env.gemini (promptFor (pyStrip t)) = .error e →
      create_quiz_from_youtube env fail user videoUrl db =
        (db, .error e, [.download, .transcribe, .generate])) ∧
    (∀ v t raw qj msg, extract_video_id videoUrl = some v → v ≠ "" →
      env.ytdl videoUrl = .success → env.audioExists = true →
      env.whisper "tmp/audio.mp3" = .ok t → pyStrip t ≠ "" →
      env.apiKeySet = true →
      env.gemini (promptFor (pyStrip t)) = .ok raw →
      env.jsonParse (geminiPostprocess raw) = some qj →
      validate_quiz_json qj = .ok (false, msg) →
      create_quiz_from_youtube env fail user videoUrl db =
        (db, .error (.valueError ("Generated quiz is invalid: " ++ msg)),
         [.download, .transcribe, .generate])) ∧
    (∀ v t raw qj, extract_video_id videoUrl = some v → v ≠ "" →
      env.ytdl videoUrl = .success → env.audioExists = true →
      env.whisper "tmp/audio.mp3" = .ok t → pyStrip t ≠ "" →
      env.apiKeySet = true →
      env.gemini (promptFor (pyStrip t)) = .ok raw →
      env.jsonParse (geminiPostprocess raw) = some qj →
      validate_quiz_json qj = .ok (true, "") →
      create_quiz_from_youtube env fail user videoUrl db =
        ((save_quiz_to_database fail user videoUrl qj db).1,
         (save_quiz_to_database fail user videoUrl qj db).2,
         [.download, .transcribe, .generate])) := by
  have hpath : ("tmp" ++ "/audio.mp3" : String) = "tmp/audio.mp3" := rfl
  refine ⟨?_, ?_, ?_, ?_, ?_, ?_⟩
  · intro hx
    unfold create_quiz_from_youtube
    simp [hx]
  · intro v e hx hv hy
    have hd : download_audio env videoUrl "tmp" = .error e := by
      unfold download_audio
      rw [hy]
    unfold create_quiz_from_youtube
    simp [hx, hv, hd]
  · intro v t hx hv hy ha hw hs
    have hd : download_audio env videoUrl "tmp" = .ok "tmp/audio.mp3" := by
      unfold download_audio
      rw [hy, ha]
      simp
    have ht : transcribe_audio env "tmp/audio.mp3" = .ok (pyStrip t) := by
      unfold transcribe_audio
      rw [hw]
    unfold create_quiz_from_youtube
    simp [hx, hv, hd, ht, hs]
  · intro v t e hx hv hy ha hw hs hk hg
    have hd : download_audio env videoUrl "tmp" = .ok "tmp/audio.mp3" := by
      unfold download_audio
      rw [hy, ha]
      simp
    have ht : transcribe_audio env "tmp/audio.mp3" = .ok (pyStrip t) := by
      unfold transcribe_audio
      rw [hw]
    have hgen : generate_quiz_with_gemini env (promptFor (pyStrip t)) = .error e := by
      unfold generate_quiz_with_gemini
      rw [hk, hg]
      simp
    unfold create_quiz_from_youtube
    simp [hx, hv, hd, ht, hs, hgen]
  · intro v t raw qj msg hx hv hy ha hw hs hk hg hj hval
    have hd : download_audio env videoUrl "tmp" = .ok "tmp/audio.mp3" := by
      unfold download_audio
      rw [hy, ha]
      simp
    have ht : transcribe_audio env "tmp/audio.mp3" = .ok (pyStrip t) := by
      unfold transcribe_audio
      rw [hw]
    have hgen : generate_quiz_with_gemini env (promptFor (pyStrip t)) = .ok qj := by
      unfold generate_quiz_with_gemini
      rw [hk, hg]
      simp [hj]
    unfold create_quiz_from_youtube
    simp [hx, hv, hd, ht, hs, hgen, hval]
  · intro v t raw qj hx hv hy ha hw hs hk hg hj hval
    have hd : download_audio env videoUrl "tmp" = .ok "tmp/audio.mp3" := by
      unfold download_audio
      rw [hy, ha]
      simp
    have ht : transcribe_audio env "tmp/audio.mp3" = .ok (pyStrip t) := by
      unfold transcribe_audio
      rw [hw]
    have hgen : generate_quiz_with_gemini env (promptFor (pyStrip t)) = .ok qj := by
      unfold generate_quiz_with_gemini
      rw [hk, hg]
      simp [hj]
    unfold create_quiz_from_youtube
    simp [hx, hv, hd, ht, hs, hgen, hval]

/-- Witness for C8: the invalid-URL clause applied to a vimeo URL and
the success clause applied to a fully successful environment. -/
theorem C8_pipeline_failure_order_witness :
    extract_video_id "https://vimeo.com/123" = none ∧
    create_quiz_from_youtube okEnv noFail 7 "https://vimeo.com/123" ⟨[], []⟩ =
      (⟨[], []⟩, .error (.valueError "Invalid YouTube URL."), []) ∧
    validate_quiz_json goodPayload = .ok (true, "") ∧
    create_quiz_from_youtube okEnv noFail 7 "https://youtu.be/v1" ⟨[], []⟩ =
      ((save_quiz_to_database noFail 7 "https://youtu.be/v1" goodPayload ⟨[], []⟩).1,
       (save_quiz_to_database noFail 7 "https://youtu.be/v1" goodPayload ⟨[], []⟩).2,
       [.download, .transcribe, .generate]) := by
  have hx : extract_video_id "https://vimeo.com/123" = none := by decide
  refine ⟨hx, (C8_pipeline_failure_order okEnv noFail 7 "https://vimeo.com/123" ⟨[], []⟩).1 hx, by decide, ?_⟩
  exact (C8_pipeline_failure_order okEnv noFail 7 "https://youtu.be/v1" ⟨[], []⟩).2.2.2.2.2
    "v1" " hello " "RESP" goodPayload (by decide) (by decide) rfl rfl rfl (by decide)
    rfl rfl rfl (by decide)
